import Mathlib

/-!
# Power sequencing of the System76 darp5 embedded controller

Shallow embedding of `src/board/system76/darp5/power.c`.

* The persistent locals of `power_event` (`static` variables), the global
  `main_cycle` and the timer-1 special function registers form the record
  `World`; every procedure of the source is a function `World → World`.
* Every externally visible action (GPIO write, blocking delay, call of a
  collaborator, write of a timer register) is appended to `World.trace`
  in program order.
* Values the code reads from hardware during one call (`gpio_get`, the
  result of `pmc_sci`) are the fields of `Inputs`.
* `DEBUG(...)` output and the blocks under `#if LEVEL >= LEVEL_DEBUG`
  only print diagnostics (and sample two lines used for nothing else);
  they are not part of the model.
-/

namespace Darp5

/-! ## Data model -/

/-- Compile-time switch of the source: `#define DEEP_SX 0`. -/
def DEEP_SX : Bool := false

/-- GPIO lines named in `power.c`. -/
inductive Gpio where
  | VA_EC_EN
  | DD_ON
  | SUS_PWR_ACK
  | PCH_DPWROK_EC
  | EC_RSMRST_N
  | EC_EN
  | PCH_PWROK_EC
  | PM_PWROK
  | PWR_BTN_N
  | LED_PWR
  | LED_ACIN
  | ACIN_N
  | PWR_SW_N
  | ALL_SYS_PWRGD
  | BUF_PLT_RST_N
  | SUSC_N_PCH
  | SUSWARN_N
  deriving DecidableEq, Repr

/-- PMC channels; `power.c` only uses `PMC_1`. -/
inductive Pmc where
  | PMC_1
  deriving DecidableEq, Repr

/-- Timer-1 special function registers written by `power_event`. -/
inductive Sfr where
  | TMOD
  | TH1
  | TL1
  | TR1
  | TF1
  deriving DecidableEq, Repr

/-- Externally visible actions, in the vocabulary of the source. -/
inductive Effect where
  | gpio_set (g : Gpio) (v : Bool)
  | delay_ms (n : Nat)
  | delay_us (n : Nat)
  | delay_ns (n : Nat)
  | battery_charger_disable
  | battery_charger_enable
  | battery_debug
  | pmc_sci (p : Pmc) (data : Nat) (accepted : Bool)
  | pnp_enable
  | sfr_write (r : Sfr) (v : Nat)
  deriving DecidableEq, Repr

/-- The enumeration `enum PowerState`. -/
inductive PowerState where
  | POWER_STATE_DEFAULT
  | POWER_STATE_DS5
  | POWER_STATE_S5
  | POWER_STATE_DS3
  | POWER_STATE_S3
  | POWER_STATE_S0
  deriving DecidableEq, Repr

open PowerState

/-- Persistent state seen by `power_event`: its `static` locals, the global
`main_cycle`, the timer-1 registers, and the trace of actions so far. -/
structure World where
  state : PowerState
  ac_send_sci : Bool
  ac_last : Bool
  ps_last : Bool
  pg_last : Bool
  rst_last : Bool
  s4_last : Bool
  ack_last : Bool
  suspend_timer : Int
  main_cycle : Nat
  TMOD : Nat
  TH1 : Nat
  TL1 : Nat
  TR1 : Bool
  TF1 : Bool
  trace : List Effect
  deriving DecidableEq, Repr

/-- Values read from hardware during one call of `power_event`, one field
per read in program order. `PWR_SW_N_again` is the second `gpio_get` of the
switch line, taken after the 10 ms settle delay; `LED_PWR` is the read-back
of the LED output; `pmc_sci` is what `pmc_sci(&PMC_1, 0x16)` returns if it
is called. -/
structure Inputs where
  ACIN_N : Bool
  pmc_sci : Bool
  PWR_SW_N : Bool
  PWR_SW_N_again : Bool
  ALL_SYS_PWRGD : Bool
  BUF_PLT_RST_N : Bool
  SUSC_N_PCH : Bool
  SUSWARN_N : Bool
  LED_PWR : Bool
  deriving DecidableEq, Repr

/-- Conversion of an `int` result back to `int8_t` (two's complement wrap). -/
def int8 (x : Int) : Int := (x + 128) % 256 - 128

/-! ## Primitive actions -/

/-- Append one action to the trace. -/
def emit (e : Effect) (w : World) : World := { w with trace := w.trace ++ [e] }

/-- Driver call `gpio_set(&g, v)`. -/
def gpio_set (g : Gpio) (v : Bool) (w : World) : World := emit (.gpio_set g v) w

/-- Blocking `delay_ms(n)`. -/
def delay_ms (n : Nat) (w : World) : World := emit (.delay_ms n) w

/-- Blocking `delay_us(n)`. -/
def delay_us (n : Nat) (w : World) : World := emit (.delay_us n) w

/-- Blocking `delay_ns(n)`. -/
def delay_ns (n : Nat) (w : World) : World := emit (.delay_ns n) w

/-- Collaborator call `battery_charger_disable()`. -/
def battery_charger_disable (w : World) : World := emit .battery_charger_disable w

/-- Collaborator call `battery_charger_enable()`. -/
def battery_charger_enable (w : World) : World := emit .battery_charger_enable w

/-- Collaborator call `battery_debug()`. -/
def battery_debug (w : World) : World := emit .battery_debug w

/-- Collaborator call `pnp_enable()`. -/
def pnp_enable (w : World) : World := emit .pnp_enable w

/-- Collaborator call `pmc_sci(&p, data)`; `accepted` is its return value. -/
def pmc_sci (accepted : Bool) (p : Pmc) (data : Nat) (w : World) : Bool × World :=
  (accepted, emit (.pmc_sci p data accepted) w)

/-- Register write `TMOD = v`. -/
def set_TMOD (v : Nat) (w : World) : World := emit (.sfr_write .TMOD v) { w with TMOD := v }

/-- Register write `TH1 = v`. -/
def set_TH1 (v : Nat) (w : World) : World := emit (.sfr_write .TH1 v) { w with TH1 := v }

/-- Register write `TL1 = v`. -/
def set_TL1 (v : Nat) (w : World) : World := emit (.sfr_write .TL1 v) { w with TL1 := v }

/-- Bit write `TR1 = v`. -/
def set_TR1 (v : Bool) (w : World) : World :=
  emit (.sfr_write .TR1 (if v then 1 else 0)) { w with TR1 := v }

/-- Bit write `TF1 = v`. -/
def set_TF1 (v : Bool) (w : World) : World :=
  emit (.sfr_write .TF1 (if v then 1 else 0)) { w with TF1 := v }

/-! ## Timing constants (lines 16-51) -/

/-- VccRTC stable (55%) to RTCRST# high. -/
def tPCH01 : World → World := delay_ms 9
/-- VccDSW stable (95%) to RSMRST# high. -/
def tPCH02 : World → World := delay_ms 10
/-- VccPrimary stable (95%) to RSMRST# high. -/
def tPCH03 : World → World := delay_ms 10
/-- VccRTC stable (90%) to start of VccDSW voltage ramp. -/
def tPCH04 : World → World := delay_ms 9
/-- VccDSW 3.3 stable to VccPrimary 1.05V. -/
def tPCH06 : World → World := delay_us 200
/-- RSMRST# asserting to VccPRIM dropping 5%. -/
def tPCH12 : World → World := delay_ns 400
/-- DSW_PWROK falling to any of VccDSW, VccPRIM dropping 5%. -/
def tPCH14 : World → World := delay_ns 400
/-- De-assertion of RSMRST# to de-assertion of ESPI_RESET#. -/
def tPCH18 : World → World := if DEEP_SX then delay_us 90 else delay_ms 95
/-- DSW_PWROK assertion to SLP_SUS# de-assertion. -/
def tPCH32 : World → World := delay_ms 95
/-- RSMRST# de-assertion to SUSPWRDNACK valid. -/
def tPLT01 : World → World := delay_ms 200

/-! ## Rail sequencer (lines 53-159) -/

/-- Enable deep sleep well power (lines 54-82). -/
def power_on_ds5 (w : World) : World :=
  if DEEP_SX then
    let w := tPCH01 w
    let w := tPCH02 w
    let w := gpio_set .PCH_DPWROK_EC true w
    tPCH32 w
  else
    tPCH04 w

/-- Enable S5 power (lines 85-128). -/
def power_on_s5 (w : World) : World :=
  if DEEP_SX then
    w
  else
    let w := gpio_set .VA_EC_EN true w
    let w := tPCH06 w
    let w := gpio_set .DD_ON true w
    let w := gpio_set .SUS_PWR_ACK true w
    let w := tPCH03 w
    let w := gpio_set .PCH_DPWROK_EC true w
    let w := gpio_set .EC_RSMRST_N true w
    let w := tPCH18 w
    let w := gpio_set .EC_EN true w
    let w := tPLT01 w
    delay_ms 200 w

/-- Disable S5 power (lines 130-159). -/
def power_off_s5 (w : World) : World :=
  if DEEP_SX then
    w
  else
    let w := gpio_set .PCH_PWROK_EC false w
    let w := gpio_set .PM_PWROK false w
    let w := gpio_set .EC_EN false w
    let w := gpio_set .EC_RSMRST_N false w
    let w := gpio_set .DD_ON false w
    let w := tPCH12 w
    let w := gpio_set .VA_EC_EN false w
    let w := gpio_set .PCH_DPWROK_EC false w
    tPCH14 w

/-! ## `power_event` (lines 170-382), block by block -/

/-- Lines 173-177: always switch to ds5 if EC is running. -/
def startup_block (w : World) : World :=
  if w.state = POWER_STATE_DEFAULT then
    let w := power_on_ds5 w
    { w with state := POWER_STATE_DS5 }
  else
    w

/-- Lines 183-199: reaction to a change of the adapter line. -/
def ac_edge_block (ac_new : Bool) (w : World) : World :=
  if ac_new != w.ac_last then
    let w := if ac_new then battery_charger_disable w else battery_charger_enable w
    let w := battery_debug w
    let w := { w with main_cycle := 0 }
    { w with ac_send_sci := true }
  else
    w

/-- Lines 200-205: send SCI 0x16 for the AC detect event while it is pending. -/
def ac_sci_block (accepted : Bool) (w : World) : World :=
  if w.ac_send_sci then
    let r := pmc_sci accepted .PMC_1 0x16 w
    if r.1 then
      { r.2 with ac_send_sci := false }
    else
      r.2
  else
    w

/-- Lines 179-206: adapter line handling. -/
def ac_block (ac_new : Bool) (accepted : Bool) (w : World) : World :=
  let w := ac_edge_block ac_new w
  let w := ac_sci_block accepted w
  { w with ac_last := ac_new }

/-- Lines 208-232: power switch with debounce; returns the final `ps_new`. -/
def switch_block (ps_read : Bool) (ps_again : Bool) (w : World) : Bool × World :=
  let ps_new := ps_read
  let r : Bool × World :=
    if !ps_new && w.ps_last then
      let w := delay_ms 10 w
      if ps_again != ps_new then
        (w.ps_last, w)
      else
        if w.state = POWER_STATE_DS5 then
          let w := power_on_s5 w
          (ps_new, { w with state := POWER_STATE_S5 })
        else
          (ps_new, w)
    else
      (ps_new, w)
  (r.1, { r.2 with ps_last := r.1 })

/-- Lines 242-267: ALL_SYS_PWRGD edges. -/
def pwrgd_block (pg_new : Bool) (w : World) : World :=
  let w :=
    if pg_new && !w.pg_last then
      let w := gpio_set .PM_PWROK true w
      let w := delay_ms 10 w
      gpio_set .PCH_PWROK_EC true w
    else if !pg_new && w.pg_last then
      let w := gpio_set .PCH_PWROK_EC false w
      gpio_set .PM_PWROK false w
    else
      w
  { w with pg_last := pg_new }

/-- Lines 269-283: PLT_RST# edges. -/
def rst_block (rst_new : Bool) (w : World) : World :=
  let w :=
    if rst_new && !w.rst_last then
      pnp_enable w
    else
      w
  { w with rst_last := rst_new }

/-- Lines 296-305: SLP_S4# is only recorded. -/
def s4_block (s4_new : Bool) (w : World) : World :=
  { w with s4_last := s4_new }

/-- Lines 318-337: SUSPWRDNACK edges. -/
def ack_block (ack_new : Bool) (s4_new : Bool) (w : World) : World :=
  let w :=
    if ack_new && !w.ack_last then
      if s4_new then
        w
      else if w.state = POWER_STATE_S5 then
        let w := power_off_s5 w
        { w with state := POWER_STATE_DS5 }
      else
        w
    else
      w
  { w with ack_last := ack_new }

/-- Lines 344-371: suspended, flashing green light driven by timer 1. -/
def led_suspend_block (led_pwr_read : Bool) (w : World) : World :=
  let w :=
    if w.suspend_timer ≤ 0 then
      let w := gpio_set .LED_PWR (!led_pwr_read) w
      { w with suspend_timer := 100 }
    else
      w
  let w := gpio_set .LED_ACIN false w
  let w :=
    if w.TF1 then
      let w := set_TR1 false w
      let w := set_TF1 false w
      { w with suspend_timer := int8 (w.suspend_timer - 1) }
    else
      w
  if !w.TR1 then
    let w := set_TMOD ((w.TMOD &&& 0x0F) ||| 0x10) w
    let w := set_TH1 0xE2 w
    let w := set_TL1 0x0C w
    set_TR1 true w
  else
    w

/-- Lines 339-380: status LEDs. -/
def led_block (rst_new : Bool) (s4_new : Bool) (ac_new : Bool) (led_pwr_read : Bool)
    (w : World) : World :=
  if rst_new then
    let w := gpio_set .LED_PWR true w
    gpio_set .LED_ACIN false w
  else if s4_new then
    led_suspend_block led_pwr_read w
  else if !ac_new then
    let w := gpio_set .LED_PWR false w
    gpio_set .LED_ACIN true w
  else
    let w := gpio_set .LED_PWR false w
    gpio_set .LED_ACIN false w

/-- World in which `gpio_set(&PWR_BTN_N, ps_new)` of line 235 is issued,
together with the value `ps_new` it forwards (lines 170-232). -/
def before_btn (i : Inputs) (w : World) : Bool × World :=
  let w := startup_block w
  let ac_new := i.ACIN_N
  let w := ac_block ac_new i.pmc_sci w
  switch_block i.PWR_SW_N i.PWR_SW_N_again w

/-- World in which the LED step of lines 339-380 starts (lines 170-337). -/
def before_led (i : Inputs) (w : World) : World :=
  let r := before_btn i w
  let ps_new := r.1
  let w := gpio_set .PWR_BTN_N ps_new r.2
  if DEEP_SX then
    w
  else
    let pg_new := i.ALL_SYS_PWRGD
    let w := pwrgd_block pg_new w
    let rst_new := i.BUF_PLT_RST_N
    let w := rst_block rst_new w
    let s4_new := i.SUSC_N_PCH
    let w := s4_block s4_new w
    let ack_new := i.SUSWARN_N
    ack_block ack_new s4_new w

/-- One call of `power_event` (lines 170-382). -/
def power_event (i : Inputs) (w : World) : World :=
  let w := before_led i w
  if DEEP_SX then
    w
  else
    led_block i.BUF_PLT_RST_N i.SUSC_N_PCH i.ACIN_N i.LED_PWR w

/-! ## Poll sequences -/

/-- What surrounds one call of `power_event`: the value the host loop left
in `main_cycle`, whether timer 1 has overflowed since the previous call
(the hardware then sets `TF1`), and the values read during the call. -/
structure Poll where
  host_cycle : Nat
  timer1_overflow : Bool
  inputs : Inputs
  deriving DecidableEq, Repr

/-- Changes made outside `power_event` between two calls. -/
def host_step (p : Poll) (w : World) : World :=
  { w with main_cycle := p.host_cycle % 256, TF1 := w.TF1 || p.timer1_overflow }

/-- One poll: the host loop reaches the call of `power_event`. -/
def poll (p : Poll) (w : World) : World := power_event p.inputs (host_step p w)

/-- Consecutive polls. -/
def run : List Poll → World → World
  | [], w => w
  | p :: ps, w => run ps (poll p w)

/-- World at controller construction: every `static` local has its
initialiser; the timer-1 registers hold whatever earlier code left. -/
def boot (tmod th1 tl1 : Nat) (tr1 tf1 : Bool) : World :=
  { state := POWER_STATE_DEFAULT
    ac_send_sci := true
    ac_last := true
    ps_last := true
    pg_last := false
    rst_last := false
    s4_last := false
    ack_last := false
    suspend_timer := 0
    main_cycle := 0
    TMOD := tmod
    TH1 := th1
    TL1 := tl1
    TR1 := tr1
    TF1 := tf1
    trace := [] }

/-- World reachable from construction by at least one poll. -/
def Reachable (w : World) : Prop :=
  ∃ (tmod th1 tl1 : Nat) (tr1 tf1 : Bool) (p : Poll) (ps : List Poll),
    w = run (p :: ps) (boot tmod th1 tl1 tr1 tf1)

/-! ## Observations -/

/-- Actions issued by the procedure `f` when run in the world `w`. -/
def issued (f : World → World) (w : World) : List Effect :=
  (f w).trace.drop w.trace.length

/-- Actions issued by one call of `power_event`. -/
def emitted (i : Inputs) (w : World) : List Effect :=
  (power_event i w).trace.drop w.trace.length

/-- States the implemented variant uses. -/
def implemented (s : PowerState) : Prop :=
  s = POWER_STATE_DEFAULT ∨ s = POWER_STATE_DS5 ∨ s = POWER_STATE_S5

/-- Value of `state` after each of the three places of `power_event` that
assign it (lines 176, 223 and 329), in program order. -/
def state_path (i : Inputs) (w : World) : List PowerState :=
  [(startup_block w).state, (before_btn i w).2.state, (power_event i w).state]

/-- Values of `state` after every assignment place, over consecutive polls. -/
def run_states : List Poll → World → List PowerState
  | [], _ => []
  | p :: ps, w => state_path p.inputs (host_step p w) ++ run_states ps (poll p w)

/-- The changes of `state` of the summary in section 4.3 of the specification. -/
def transition_ok : PowerState → PowerState → Bool
  | POWER_STATE_DEFAULT, POWER_STATE_DS5 => true
  | POWER_STATE_DS5, POWER_STATE_S5 => true
  | POWER_STATE_S5, POWER_STATE_DS5 => true
  | _, _ => false

/-- Signals a trace drives to `v`, in order. -/
def driven (v : Bool) (t : List Effect) : List Gpio :=
  t.filterMap fun e =>
    match e with
    | .gpio_set g b => if b = v then some g else none
    | _ => none

/-- Values a trace writes to the line `g`, in order. -/
def writes_to (g : Gpio) (t : List Effect) : List Bool :=
  t.filterMap fun e =>
    match e with
    | .gpio_set h b => if h = g then some b else none
    | _ => none

/-- GPIO writes of a trace, in order. -/
def gpio_writes (t : List Effect) : List (Gpio × Bool) :=
  t.filterMap fun e =>
    match e with
    | .gpio_set g b => some (g, b)
    | _ => none

/-- Calls of `pmc_sci` in a trace, in order: channel, event code, result. -/
def sci_sends (t : List Effect) : List (Pmc × Nat × Bool) :=
  t.filterMap fun e =>
    match e with
    | .pmc_sci p d a => some (p, d, a)
    | _ => none

/-- Writes of timer-1 registers in a trace, in order. -/
def sfr_writes (t : List Effect) : List (Sfr × Nat) :=
  t.filterMap fun e =>
    match e with
    | .sfr_write r v => some (r, v)
    | _ => none

/-- Trace of a procedure run on its own. -/
def trace_of (f : World → World) : List Effect :=
  (f (boot 0 0 0 false false)).trace

/-- Actions issued by consecutive polls. -/
def run_out (ps : List Poll) (w : World) : List Effect :=
  (run ps w).trace.drop w.trace.length

/-- Calls of the battery collaborator in a trace, in order. -/
def battery_calls (t : List Effect) : List Effect :=
  t.filter fun e =>
    match e with
    | .battery_charger_disable => true
    | .battery_charger_enable => true
    | .battery_debug => true
    | _ => false

/-- Calls of `pmc_sci` of a trace that the channel accepted. -/
def accepted_sends (t : List Effect) : List (Pmc × Nat × Bool) :=
  (sci_sends t).filter fun s => s.2.2

/-- No monitored line shows an edge: every sample equals the value
`power_event` holds as last seen. -/
def no_edge (i : Inputs) (w : World) : Prop :=
  i.ACIN_N = w.ac_last ∧ i.PWR_SW_N = w.ps_last ∧ i.ALL_SYS_PWRGD = w.pg_last ∧
  i.BUF_PLT_RST_N = w.rst_last ∧ i.SUSC_N_PCH = w.s4_last ∧ i.SUSWARN_N = w.ack_last

/-- Actions a poll without any edge may issue: GPIO writes to PWR_BTN_N and
the two LEDs, a `pmc_sci` call, timer-1 register writes. -/
def quiet_action : Effect → Bool
  | .gpio_set g _ => g = .PWR_BTN_N || g = .LED_PWR || g = .LED_ACIN
  | .pmc_sci _ _ _ => true
  | .sfr_write _ _ => true
  | _ => false

/-- Retry policy in the words of the specification: a pending notification
is sent at every poll, up to and including the first poll whose send is
accepted. -/
def retry_sends : List Poll → List (Pmc × Nat × Bool)
  | [] => []
  | p :: ps =>
    (Pmc.PMC_1, 0x16, p.inputs.pmc_sci) :: (if p.inputs.pmc_sci then [] else retry_sends ps)

/-! ## Sample inputs -/

/-- Every line idle: adapter unplugged, switch released, nothing asserted;
the PMC channel accepts. -/
def idle_inputs : Inputs :=
  { ACIN_N := true
    pmc_sci := true
    PWR_SW_N := true
    PWR_SW_N_again := true
    ALL_SYS_PWRGD := false
    BUF_PLT_RST_N := false
    SUSC_N_PCH := false
    SUSWARN_N := false
    LED_PWR := false }

/-- Poll around `idle_inputs`. -/
def idle_poll : Poll := { host_cycle := 1, timer1_overflow := false, inputs := idle_inputs }

/-- Poll in which the adapter line reads low (plugged in). -/
def plugged_poll : Poll :=
  { host_cycle := 2, timer1_overflow := false, inputs := { idle_inputs with ACIN_N := false } }

/-- World at construction with the timer registers at their reset values. -/
def boot0 : World := boot 0 0 0 false false

/-! ## Closed forms

Each block of `power_event` is characterised by the actions it issues and
the fields it changes, as functions of the values it reads. The theorems
below prove that the source definitions agree with these forms. -/

/-- Actions of the startup block. -/
def startup_out (s : PowerState) : List Effect :=
  if s = POWER_STATE_DEFAULT then [.delay_ms 9] else []

/-- Value of `state` after the startup block. -/
def startup_state (s : PowerState) : PowerState :=
  if s = POWER_STATE_DEFAULT then POWER_STATE_DS5 else s

/-- Actions of the adapter block. -/
def ac_out (ac_new accepted ac_last ac_send_sci : Bool) : List Effect :=
  (if ac_new != ac_last then
    [if ac_new then .battery_charger_disable else .battery_charger_enable, .battery_debug]
   else []) ++
  (if ac_send_sci || (ac_new != ac_last) then [.pmc_sci .PMC_1 0x16 accepted] else [])

/-- Actions of `power_on_s5`. -/
def s5_on_out : List Effect :=
  [.gpio_set .VA_EC_EN true, .delay_us 200, .gpio_set .DD_ON true,
   .gpio_set .SUS_PWR_ACK true, .delay_ms 10, .gpio_set .PCH_DPWROK_EC true,
   .gpio_set .EC_RSMRST_N true, .delay_ms 95, .gpio_set .EC_EN true,
   .delay_ms 200, .delay_ms 200]

/-- Actions of `power_off_s5`. -/
def s5_off_out : List Effect :=
  [.gpio_set .PCH_PWROK_EC false, .gpio_set .PM_PWROK false, .gpio_set .EC_EN false,
   .gpio_set .EC_RSMRST_N false, .gpio_set .DD_ON false, .delay_ns 400,
   .gpio_set .VA_EC_EN false, .gpio_set .PCH_DPWROK_EC false, .delay_ns 400]

/-- A press is seen and the second sample confirms it. -/
def press_confirmed (ps_read ps_again ps_last : Bool) : Bool :=
  !ps_read && ps_last && !(ps_again != ps_read)

/-- Final value of `ps_new` in the switch block. -/
def switch_value (ps_read ps_again ps_last : Bool) : Bool :=
  if !ps_read && ps_last && (ps_again != ps_read) then ps_last else ps_read

/-- Value of `state` after the switch block. -/
def switch_state (ps_read ps_again ps_last : Bool) (s : PowerState) : PowerState :=
  if press_confirmed ps_read ps_again ps_last && s = POWER_STATE_DS5 then POWER_STATE_S5 else s

/-- Actions of the switch block. -/
def switch_out (ps_read ps_again ps_last : Bool) (s : PowerState) : List Effect :=
  (if !ps_read && ps_last then [.delay_ms 10] else []) ++
  (if press_confirmed ps_read ps_again ps_last && s = POWER_STATE_DS5 then s5_on_out else [])

/-- Actions of the ALL_SYS_PWRGD block. -/
def pwrgd_out (pg_new pg_last : Bool) : List Effect :=
  if pg_new && !pg_last then
    [.gpio_set .PM_PWROK true, .delay_ms 10, .gpio_set .PCH_PWROK_EC true]
  else if !pg_new && pg_last then
    [.gpio_set .PCH_PWROK_EC false, .gpio_set .PM_PWROK false]
  else []

/-- Actions of the PLT_RST# block. -/
def rst_out (rst_new rst_last : Bool) : List Effect :=
  if rst_new && !rst_last then [.pnp_enable] else []

/-- The SUSPWRDNACK block runs `power_off_s5`. -/
def ack_fires (ack_new s4_new ack_last : Bool) (s : PowerState) : Bool :=
  ack_new && !ack_last && !s4_new && s = POWER_STATE_S5

/-- Value of `state` after the SUSPWRDNACK block. -/
def ack_state (ack_new s4_new ack_last : Bool) (s : PowerState) : PowerState :=
  if ack_fires ack_new s4_new ack_last s then POWER_STATE_DS5 else s

/-- Actions of the SUSPWRDNACK block. -/
def ack_out (ack_new s4_new ack_last : Bool) (s : PowerState) : List Effect :=
  if ack_fires ack_new s4_new ack_last s then s5_off_out else []

/-- The flashing branch programs timer 1. -/
def timer_reload (tf1 tr1 : Bool) : Bool := tf1 || !tr1

/-- Value of `suspend_timer` after the flashing branch. -/
def suspend_next (st : Int) (tf1 : Bool) : Int :=
  if tf1 then int8 ((if st ≤ 0 then 100 else st) - 1) else (if st ≤ 0 then 100 else st)

/-- Actions of the flashing branch. -/
def led_suspend_out (led_read : Bool) (st : Int) (tf1 tr1 : Bool) (tmod : Nat) : List Effect :=
  (if st ≤ 0 then [.gpio_set .LED_PWR (!led_read)] else []) ++ [.gpio_set .LED_ACIN false] ++
  (if tf1 then [.sfr_write .TR1 0, .sfr_write .TF1 0] else []) ++
  (if timer_reload tf1 tr1 then
    [.sfr_write .TMOD ((tmod &&& 0x0F) ||| 0x10), .sfr_write .TH1 0xE2, .sfr_write .TL1 0x0C,
     .sfr_write .TR1 1]
   else [])

/-- Actions of the LED step. -/
def led_out (rst_new s4_new ac_new led_read : Bool) (st : Int) (tf1 tr1 : Bool) (tmod : Nat) :
    List Effect :=
  if rst_new then [.gpio_set .LED_PWR true, .gpio_set .LED_ACIN false]
  else if s4_new then led_suspend_out led_read st tf1 tr1 tmod
  else if !ac_new then [.gpio_set .LED_PWR false, .gpio_set .LED_ACIN true]
  else [.gpio_set .LED_PWR false, .gpio_set .LED_ACIN false]

/-- The poll takes the flashing branch of the LED step. -/
def blinking (i : Inputs) : Bool := !i.BUF_PLT_RST_N && i.SUSC_N_PCH

/-- Value of `state` after one call of `power_event`. -/
def poll_state (i : Inputs) (w : World) : PowerState :=
  ack_state i.SUSWARN_N i.SUSC_N_PCH w.ack_last
    (switch_state i.PWR_SW_N i.PWR_SW_N_again w.ps_last (startup_state w.state))

/-- Actions of one call of `power_event` before the LED step. -/
def before_led_out (i : Inputs) (w : World) : List Effect :=
  startup_out w.state ++ ac_out i.ACIN_N i.pmc_sci w.ac_last w.ac_send_sci ++
  switch_out i.PWR_SW_N i.PWR_SW_N_again w.ps_last (startup_state w.state) ++
  [.gpio_set .PWR_BTN_N (switch_value i.PWR_SW_N i.PWR_SW_N_again w.ps_last)] ++
  pwrgd_out i.ALL_SYS_PWRGD w.pg_last ++ rst_out i.BUF_PLT_RST_N w.rst_last ++
  ack_out i.SUSWARN_N i.SUSC_N_PCH w.ack_last
    (switch_state i.PWR_SW_N i.PWR_SW_N_again w.ps_last (startup_state w.state))

/-- Actions of one call of `power_event`. -/
def poll_out (i : Inputs) (w : World) : List Effect :=
  before_led_out i w ++
  led_out i.BUF_PLT_RST_N i.SUSC_N_PCH i.ACIN_N i.LED_PWR w.suspend_timer w.TF1 w.TR1 w.TMOD

/-! ## Observations for the later steps of `power_event` -/

/-- World in which the ALL_SYS_PWRGD step of lines 242-267 starts: the world
right after the write of line 235. -/
def before_pwrgd (i : Inputs) (w : World) : World :=
  gpio_set .PWR_BTN_N (before_btn i w).1 (before_btn i w).2

/-- World in which the SUSPWRDNACK step of lines 318-337 starts. -/
def before_ack (i : Inputs) (w : World) : World :=
  s4_block i.SUSC_N_PCH
    (rst_block i.BUF_PLT_RST_N (pwrgd_block i.ALL_SYS_PWRGD (before_pwrgd i w)))

/-- Blocking delays of a trace, in order. -/
def delays (t : List Effect) : List Effect :=
  t.filter fun e =>
    match e with
    | .delay_ms _ => true
    | .delay_us _ => true
    | .delay_ns _ => true
    | _ => false

/-- Level of the output `g` after the trace `t`: the value of the last
`gpio_set` on `g`, or `init` if `t` never drives it. -/
def last_driven (g : Gpio) (init : Bool) (t : List Effect) : Bool :=
  t.foldl (fun b e =>
    match e with
    | .gpio_set h v => if h = g then v else b
    | _ => b) init

/-- Power-OK ordering along a trace: starting from the levels `pm` of
PM_PWROK and `pch` of PCH_PWROK_EC, at the start and after every action
PCH_PWROK_EC is high only if PM_PWROK is high. -/
def pwrok_ordered (pm pch : Bool) : List Effect → Bool
  | [] => !pch || pm
  | e :: t =>
    (!pch || pm) &&
      pwrok_ordered (last_driven .PM_PWROK pm [e]) (last_driven .PCH_PWROK_EC pch [e]) t

/-- Every write to `g` of a trace changes the level of `g`, which starts at
`last`. -/
def toggles (g : Gpio) (last : Bool) : List Effect → Bool
  | [] => true
  | e :: t =>
    (match e with
      | .gpio_set h v => if h = g then v != last else true
      | _ => true) &&
      toggles g (last_driven g last [e]) t

/-- Outputs enabled by `power_on_s5` that `power_off_s5` disables again. -/
def rails : List Gpio := [.VA_EC_EN, .DD_ON, .PCH_DPWROK_EC, .EC_RSMRST_N, .EC_EN]

/-- Number of inversions of LED_PWR over consecutive polls: writes to
LED_PWR issued by polls that take the flashing branch. -/
def inversions : List Poll → World → Nat
  | [], _ => 0
  | p :: ps, w =>
    (if blinking p.inputs then
      (writes_to .LED_PWR (emitted p.inputs (host_step p w))).length else 0) +
    inversions ps (poll p w)

/-- Number of timer-1 ticks consumed over consecutive polls: polls that take
the flashing branch and find `TF1` set. -/
def ticks_consumed : List Poll → World → Nat
  | [], _ => 0
  | p :: ps, w =>
    (if blinking p.inputs && (host_step p w).TF1 then 1 else 0) + ticks_consumed ps (poll p w)

/-- A stretch of actions that keeps the power-OK ordering and ends with
PM_PWROK and PCH_PWROK_EC at equal levels, when started at equal levels. -/
def pwrok_neutral (l : List Effect) : Prop :=
  ∀ b, pwrok_ordered b b l = true ∧ last_driven .PM_PWROK b l = last_driven .PCH_PWROK_EC b l

/-- A stretch of actions that does not drive the output `g`. -/
def inert (g : Gpio) (l : List Effect) : Prop :=
  ∀ b, last_driven g b l = b ∧ toggles g b l = true

/-! # Theorems -/

/-! ## The blocks in closed form -/

theorem power_on_s5_eq (w : World) :
    power_on_s5 w = { w with trace := w.trace ++ s5_on_out } := by
  simp [power_on_s5, DEEP_SX, gpio_set, emit, tPCH06, tPCH03, tPCH18, tPLT01, delay_ms, delay_us, s5_on_out]

theorem power_off_s5_eq (w : World) :
    power_off_s5 w = { w with trace := w.trace ++ s5_off_out } := by
  simp [power_off_s5, DEEP_SX, gpio_set, emit, tPCH12, tPCH14, delay_ns, s5_off_out]

theorem power_on_ds5_eq (w : World) :
    power_on_ds5 w = { w with trace := w.trace ++ [.delay_ms 9] } := by
  simp [power_on_ds5, DEEP_SX, tPCH04, delay_ms, emit]

theorem startup_block_eq (w : World) :
    startup_block w = { w with state := startup_state w.state,
                               trace := w.trace ++ startup_out w.state } := by
  unfold startup_block startup_state startup_out
  split_ifs <;> simp_all [power_on_ds5_eq]

theorem ac_block_eq (a ok : Bool) (w : World) :
    ac_block a ok w = { w with
      ac_send_sci := (w.ac_send_sci || (a != w.ac_last)) && !ok,
      ac_last := a,
      main_cycle := if a != w.ac_last then 0 else w.main_cycle,
      trace := w.trace ++ ac_out a ok w.ac_last w.ac_send_sci } := by
  obtain ⟨s, sci, al, _⟩ := w
  cases a <;> cases ok <;> cases al <;> cases sci <;>
    simp [ac_block, ac_edge_block, ac_sci_block, ac_out, pmc_sci, emit,
      battery_charger_disable, battery_charger_enable, battery_debug]

theorem switch_block_eq (r g : Bool) (w : World) :
    switch_block r g w = (switch_value r g w.ps_last,
      { w with state := switch_state r g w.ps_last w.state,
               ps_last := switch_value r g w.ps_last,
               trace := w.trace ++ switch_out r g w.ps_last w.state }) := by
  obtain ⟨s, sci, al, pl, _⟩ := w
  cases r <;> cases g <;> cases pl <;>
    simp [switch_block, switch_value, switch_state, switch_out, press_confirmed, delay_ms, emit,
      power_on_s5_eq] <;>
    (split_ifs <;> simp_all)

theorem pwrgd_block_eq (p : Bool) (w : World) :
    pwrgd_block p w = { w with pg_last := p, trace := w.trace ++ pwrgd_out p w.pg_last } := by
  obtain ⟨s, sci, al, pl, gl, _⟩ := w
  cases p <;> cases gl <;> simp [pwrgd_block, pwrgd_out, gpio_set, delay_ms, emit]

theorem rst_block_eq (r : Bool) (w : World) :
    rst_block r w = { w with rst_last := r, trace := w.trace ++ rst_out r w.rst_last } := by
  obtain ⟨s, sci, al, pl, gl, rl, _⟩ := w
  cases r <;> cases rl <;> simp [rst_block, rst_out, pnp_enable, emit]

theorem ack_block_eq (a s4 : Bool) (w : World) :
    ack_block a s4 w = { w with state := ack_state a s4 w.ack_last w.state, ack_last := a,
                                trace := w.trace ++ ack_out a s4 w.ack_last w.state } := by
  obtain ⟨s, sci, al, pl, gl, rl, s4l, kl, _⟩ := w
  cases a <;> cases s4 <;> cases kl <;>
    simp [ack_block, ack_state, ack_out, ack_fires, power_off_s5_eq] <;>
    (split_ifs <;> simp_all)

theorem led_suspend_block_eq (l : Bool) (w : World) :
    led_suspend_block l w = { w with
      suspend_timer := suspend_next w.suspend_timer w.TF1,
      TMOD := if timer_reload w.TF1 w.TR1 then (w.TMOD &&& 0x0F) ||| 0x10 else w.TMOD,
      TH1 := if timer_reload w.TF1 w.TR1 then 0xE2 else w.TH1,
      TL1 := if timer_reload w.TF1 w.TR1 then 0x0C else w.TL1,
      TR1 := true,
      TF1 := false,
      trace := w.trace ++ led_suspend_out l w.suspend_timer w.TF1 w.TR1 w.TMOD } := by
  obtain ⟨s, sci, al, pl, gl, rl, s4l, kl, st, mc, tmod, th1, tl1, tr1, tf1, t⟩ := w
  by_cases hst : st ≤ 0 <;> cases tf1 <;> cases tr1 <;>
    simp [led_suspend_block, led_suspend_out, suspend_next, timer_reload, gpio_set, emit,
      set_TR1, set_TF1, set_TMOD, set_TH1, set_TL1, hst]

theorem led_block_eq (r s4 a l : Bool) (w : World) :
    led_block r s4 a l w =
      if !r && s4 then led_suspend_block l w
      else { w with trace := w.trace ++ led_out r s4 a l w.suspend_timer w.TF1 w.TR1 w.TMOD } := by
  cases r <;> cases s4 <;> cases a <;> simp [led_block, led_out, gpio_set, emit]

theorem led_block_trace (r s4 a l : Bool) (w : World) :
    (led_block r s4 a l w).trace =
      w.trace ++ led_out r s4 a l w.suspend_timer w.TF1 w.TR1 w.TMOD := by
  cases r <;> cases s4 <;> cases a <;>
    simp [led_block_eq, led_suspend_block_eq, led_out]

theorem before_btn_eq (i : Inputs) (w : World) :
    before_btn i w = (switch_value i.PWR_SW_N i.PWR_SW_N_again w.ps_last,
      { w with
        state := switch_state i.PWR_SW_N i.PWR_SW_N_again w.ps_last (startup_state w.state),
        ac_send_sci := (w.ac_send_sci || (i.ACIN_N != w.ac_last)) && !i.pmc_sci,
        ac_last := i.ACIN_N,
        ps_last := switch_value i.PWR_SW_N i.PWR_SW_N_again w.ps_last,
        main_cycle := if i.ACIN_N != w.ac_last then 0 else w.main_cycle,
        trace := w.trace ++ (startup_out w.state ++
          ac_out i.ACIN_N i.pmc_sci w.ac_last w.ac_send_sci ++
          switch_out i.PWR_SW_N i.PWR_SW_N_again w.ps_last (startup_state w.state)) }) := by
  simp [before_btn, startup_block_eq, ac_block_eq, switch_block_eq]

theorem before_led_eq (i : Inputs) (w : World) :
    before_led i w = { w with
        state := poll_state i w,
        ac_send_sci := (w.ac_send_sci || (i.ACIN_N != w.ac_last)) && !i.pmc_sci,
        ac_last := i.ACIN_N,
        ps_last := switch_value i.PWR_SW_N i.PWR_SW_N_again w.ps_last,
        pg_last := i.ALL_SYS_PWRGD,
        rst_last := i.BUF_PLT_RST_N,
        s4_last := i.SUSC_N_PCH,
        ack_last := i.SUSWARN_N,
        main_cycle := if i.ACIN_N != w.ac_last then 0 else w.main_cycle,
        trace := w.trace ++ before_led_out i w } := by
  simp [before_led, before_btn_eq, DEEP_SX, gpio_set, emit, pwrgd_block_eq, rst_block_eq,
    s4_block, ack_block_eq, poll_state, before_led_out]

theorem power_event_eq (i : Inputs) (w : World) :
    power_event i w = { w with
        state := poll_state i w,
        ac_send_sci := (w.ac_send_sci || (i.ACIN_N != w.ac_last)) && !i.pmc_sci,
        ac_last := i.ACIN_N,
        ps_last := switch_value i.PWR_SW_N i.PWR_SW_N_again w.ps_last,
        pg_last := i.ALL_SYS_PWRGD,
        rst_last := i.BUF_PLT_RST_N,
        s4_last := i.SUSC_N_PCH,
        ack_last := i.SUSWARN_N,
        suspend_timer := if blinking i then suspend_next w.suspend_timer w.TF1 else w.suspend_timer,
        main_cycle := if i.ACIN_N != w.ac_last then 0 else w.main_cycle,
        TMOD := if blinking i && timer_reload w.TF1 w.TR1 then (w.TMOD &&& 0x0F) ||| 0x10 else w.TMOD,
        TH1 := if blinking i && timer_reload w.TF1 w.TR1 then 0xE2 else w.TH1,
        TL1 := if blinking i && timer_reload w.TF1 w.TR1 then 0x0C else w.TL1,
        TR1 := blinking i || w.TR1,
        TF1 := !blinking i && w.TF1,
        trace := w.trace ++ poll_out i w } := by
  unfold power_event
  rw [before_led_eq]
  cases hr : i.BUF_PLT_RST_N <;> cases h4 : i.SUSC_N_PCH <;>
    simp [DEEP_SX, led_block_eq, led_suspend_block_eq, blinking, hr, h4, poll_out, led_out]

theorem emitted_eq (i : Inputs) (w : World) : emitted i w = poll_out i w := by
  simp [emitted, power_event_eq]

/-! ## Projections of traces -/

@[simp]
theorem driven_append (v : Bool) (a b : List Effect) :
    driven v (a ++ b) = driven v a ++ driven v b := by
  simp [driven, List.filterMap_append]

@[simp]
theorem writes_to_append (g : Gpio) (a b : List Effect) :
    writes_to g (a ++ b) = writes_to g a ++ writes_to g b := by
  simp [writes_to, List.filterMap_append]

@[simp]
theorem gpio_writes_append (a b : List Effect) :
    gpio_writes (a ++ b) = gpio_writes a ++ gpio_writes b := by
  simp [gpio_writes, List.filterMap_append]

@[simp]
theorem sci_sends_append (a b : List Effect) :
    sci_sends (a ++ b) = sci_sends a ++ sci_sends b := by
  simp [sci_sends, List.filterMap_append]

@[simp]
theorem sfr_writes_append (a b : List Effect) :
    sfr_writes (a ++ b) = sfr_writes a ++ sfr_writes b := by
  simp [sfr_writes, List.filterMap_append]

@[simp]
theorem battery_calls_append (a b : List Effect) :
    battery_calls (a ++ b) = battery_calls a ++ battery_calls b := by
  simp [battery_calls, List.filter_append]

theorem gpio_writes_startup_out (s : PowerState) : gpio_writes (startup_out s) = [] := by
  unfold startup_out; split_ifs <;> rfl

theorem gpio_writes_ac_out (a k l c : Bool) : gpio_writes (ac_out a k l c) = [] := by
  cases a <;> cases l <;> cases c <;> simp [ac_out, gpio_writes]

theorem gpio_writes_rst_out (r l : Bool) : gpio_writes (rst_out r l) = [] := by
  cases r <;> cases l <;> simp [rst_out, gpio_writes]

theorem gpio_writes_switch_out (r g l : Bool) (s : PowerState) :
    gpio_writes (switch_out r g l s) =
      if press_confirmed r g l && s = POWER_STATE_DS5 then gpio_writes s5_on_out else [] := by
  cases r <;> cases g <;> cases l <;> simp [switch_out, press_confirmed, gpio_writes] <;>
    (split_ifs <;> simp)

theorem gpio_writes_ack_out (a s4 l : Bool) (s : PowerState) :
    gpio_writes (ack_out a s4 l s) =
      if ack_fires a s4 l s then gpio_writes s5_off_out else [] := by
  unfold ack_out; split_ifs <;> rfl

theorem gpio_writes_pwrgd_out (p l : Bool) :
    gpio_writes (pwrgd_out p l) =
      if p && !l then [(.PM_PWROK, true), (.PCH_PWROK_EC, true)]
      else if !p && l then [(.PCH_PWROK_EC, false), (.PM_PWROK, false)] else [] := by
  cases p <;> cases l <;> simp [pwrgd_out, gpio_writes]

theorem gpio_writes_led_out (r s4 a lr : Bool) (st : Int) (tf1 tr1 : Bool) (tmod : Nat) :
    gpio_writes (led_out r s4 a lr st tf1 tr1 tmod) =
      if r then [(.LED_PWR, true), (.LED_ACIN, false)]
      else if s4 then
        (if st ≤ 0 then [(.LED_PWR, !lr)] else []) ++ [(.LED_ACIN, false)]
      else if !a then [(.LED_PWR, false), (.LED_ACIN, true)]
      else [(.LED_PWR, false), (.LED_ACIN, false)] := by
  by_cases hst : st ≤ 0 <;> cases r <;> cases s4 <;> cases a <;> cases tf1 <;> cases tr1 <;>
    simp [led_out, led_suspend_out, timer_reload, gpio_writes, hst]

theorem gpio_writes_poll_out (i : Inputs) (w : World) :
    gpio_writes (poll_out i w) =
      gpio_writes (switch_out i.PWR_SW_N i.PWR_SW_N_again w.ps_last (startup_state w.state)) ++
      (Gpio.PWR_BTN_N, switch_value i.PWR_SW_N i.PWR_SW_N_again w.ps_last) ::
      (gpio_writes (pwrgd_out i.ALL_SYS_PWRGD w.pg_last) ++
       (gpio_writes (ack_out i.SUSWARN_N i.SUSC_N_PCH w.ack_last
          (switch_state i.PWR_SW_N i.PWR_SW_N_again w.ps_last (startup_state w.state))) ++
        gpio_writes (led_out i.BUF_PLT_RST_N i.SUSC_N_PCH i.ACIN_N i.LED_PWR w.suspend_timer
          w.TF1 w.TR1 w.TMOD))) := by
  simp only [poll_out, before_led_out, gpio_writes_append, gpio_writes_startup_out,
    gpio_writes_ac_out, gpio_writes_rst_out, List.nil_append, List.append_nil, List.append_assoc]
  rfl

theorem driven_of_gpio_writes (v : Bool) (t : List Effect) :
    driven v t = (gpio_writes t).filterMap (fun gb => if gb.2 = v then some gb.1 else none) := by
  induction t with
  | nil => rfl
  | cons e t ih =>
    cases e <;> simp_all [driven, gpio_writes, List.filterMap_cons]

theorem writes_to_of_gpio_writes (g : Gpio) (t : List Effect) :
    writes_to g t = (gpio_writes t).filterMap (fun gb => if gb.1 = g then some gb.2 else none) := by
  induction t with
  | nil => rfl
  | cons e t ih =>
    cases e <;> simp_all [writes_to, gpio_writes, List.filterMap_cons]

/-! ## State over poll sequences -/

theorem run_append (ps qs : List Poll) (w : World) : run (ps ++ qs) w = run qs (run ps w) := by
  induction ps generalizing w with
  | nil => rfl
  | cons p ps ih => simp [run, ih]

theorem poll_eq_state (p : Poll) (w : World) : (poll p w).state = poll_state p.inputs w := by
  simp [poll, power_event_eq, host_step, poll_state]

theorem state_path_eq (i : Inputs) (w : World) :
    state_path i w = [startup_state w.state,
      switch_state i.PWR_SW_N i.PWR_SW_N_again w.ps_last (startup_state w.state),
      poll_state i w] := by
  simp [state_path, startup_block_eq, before_btn_eq, power_event_eq]

/-- The startup block leaves `state` or takes Default to DS5, and never
leaves it Default. -/
theorem startup_state_step (s : PowerState) :
    (s = startup_state s ∨ transition_ok s (startup_state s) = true) ∧
    startup_state s ≠ POWER_STATE_DEFAULT := by
  cases s <;> simp [startup_state, transition_ok]

theorem switch_state_step (r g l : Bool) (s : PowerState) :
    s = switch_state r g l s ∨ transition_ok s (switch_state r g l s) = true := by
  cases s <;> cases r <;> cases g <;> cases l <;>
    simp [switch_state, press_confirmed, transition_ok]

theorem ack_state_step (a s4 l : Bool) (s : PowerState) :
    s = ack_state a s4 l s ∨ transition_ok s (ack_state a s4 l s) = true := by
  cases s <;> cases a <;> cases s4 <;> cases l <;>
    simp [ack_state, ack_fires, transition_ok]

theorem implemented_of_step {a b : PowerState} (ha : implemented a)
    (h : a = b ∨ transition_ok a b = true) : implemented b := by
  rcases h with h | h
  · exact h ▸ ha
  · cases a <;> cases b <;> simp_all [transition_ok, implemented]

theorem run_states_chain (ps : List Poll) (w : World) (hw : implemented w.state) :
    (∀ s ∈ run_states ps w, implemented s) ∧
    List.Chain (fun a b => a = b ∨ transition_ok a b = true) w.state (run_states ps w) := by
  induction ps generalizing w with
  | nil => simp [run_states]
  | cons p ps ih =>
    have h1 := (startup_state_step w.state).1
    have h2 := switch_state_step p.inputs.PWR_SW_N p.inputs.PWR_SW_N_again w.ps_last
      (startup_state w.state)
    have h3 := ack_state_step p.inputs.SUSWARN_N p.inputs.SUSC_N_PCH w.ack_last
      (switch_state p.inputs.PWR_SW_N p.inputs.PWR_SW_N_again w.ps_last (startup_state w.state))
    have i1 := implemented_of_step hw h1
    have i2 := implemented_of_step i1 h2
    have i3 := implemented_of_step i2 h3
    have hp : (poll p w).state = poll_state p.inputs w := poll_eq_state p w
    have := ih (poll p w) (by rw [hp]; exact i3)
    rw [hp] at this
    have hs : state_path p.inputs (host_step p w) = [startup_state w.state,
      switch_state p.inputs.PWR_SW_N p.inputs.PWR_SW_N_again w.ps_last (startup_state w.state),
      poll_state p.inputs w] := by
      simp [state_path_eq, host_step, poll_state]
    simp only [run_states, hs]
    refine ⟨?_, ?_⟩
    · intro s hs
      simp only [List.cons_append, List.nil_append, List.mem_cons] at hs
      rcases hs with rfl | rfl | rfl | hs
      · exact i1
      · exact i2
      · exact i3
      · exact this.1 s hs
    · simp only [List.cons_append, List.nil_append, List.chain_cons]
      exact ⟨h1, h2, h3, this.2⟩

theorem run_state_mem (ps : List Poll) (w : World) :
    (run ps w).state = w.state ∨ (run ps w).state ∈ run_states ps w := by
  induction ps generalizing w with
  | nil => exact Or.inl rfl
  | cons p ps ih =>
    right
    have hs : (poll p w).state ∈ state_path p.inputs (host_step p w) := by
      simp [state_path, poll]
    simp only [run, run_states, List.mem_append]
    rcases ih (poll p w) with h | h
    · left; rw [h]; exact hs
    · right; exact h

theorem no_skip_of_chain (l2 l3 : List PowerState)
    (h : List.Chain' (fun a b => a = b ∨ transition_ok a b = true)
      (POWER_STATE_DEFAULT :: (l2 ++ POWER_STATE_S5 :: l3))) :
    POWER_STATE_DS5 ∈ l2 := by
  induction l2 with
  | nil => simp [List.Chain', transition_ok] at h
  | cons x l2 ih =>
    simp only [List.cons_append, List.chain'_cons] at h
    rcases h.1 with hx | hx
    · subst hx
      have := ih (by simpa [List.chain'_cons] using h.2)
      exact List.mem_cons_of_mem _ this
    · cases x <;> simp_all [transition_ok]

/-- C1. From construction, over every sequence of polls and inputs, `state` only
takes the values Default, DS5 and S5; each assignment either leaves it or
makes one of Default to DS5, DS5 to S5, S5 to DS5; and between a Default
and a later S5 there is always a DS5. -/
theorem C1_state_reachability (tmod th1 tl1 : Nat) (tr1 tf1 : Bool) (ps : List Poll) :
    (∀ s ∈ POWER_STATE_DEFAULT :: run_states ps (boot tmod th1 tl1 tr1 tf1),
      s = POWER_STATE_DEFAULT ∨ s = POWER_STATE_DS5 ∨ s = POWER_STATE_S5) ∧
    List.Chain' (fun a b => a = b ∨ transition_ok a b = true)
      (POWER_STATE_DEFAULT :: run_states ps (boot tmod th1 tl1 tr1 tf1)) ∧
    (∀ l1 l2 l3 : List PowerState,
      POWER_STATE_DEFAULT :: run_states ps (boot tmod th1 tl1 tr1 tf1) =
        l1 ++ POWER_STATE_DEFAULT :: (l2 ++ POWER_STATE_S5 :: l3) →
      POWER_STATE_DS5 ∈ l2) ∧
    (run ps (boot tmod th1 tl1 tr1 tf1)).state ∈
      POWER_STATE_DEFAULT :: run_states ps (boot tmod th1 tl1 tr1 tf1) := by
  have hb : implemented (boot tmod th1 tl1 tr1 tf1).state := Or.inl rfl
  have h := run_states_chain ps (boot tmod th1 tl1 tr1 tf1) hb
  have hc : List.Chain' (fun a b => a = b ∨ transition_ok a b = true)
      (POWER_STATE_DEFAULT :: run_states ps (boot tmod th1 tl1 tr1 tf1)) := h.2
  refine ⟨?_, hc, ?_, ?_⟩
  · intro s hs
    rcases List.mem_cons.1 hs with rfl | hs
    · exact Or.inl rfl
    · exact h.1 s hs
  · intro l1 l2 l3 hl
    rw [hl] at hc
    exact no_skip_of_chain l2 l3 (List.Chain'.right_of_append hc)
  · rcases run_state_mem ps (boot tmod th1 tl1 tr1 tf1) with h | h
    · rw [h]; exact List.mem_cons_self _ _
    · exact List.mem_cons_of_mem _ h

/-- C2. For every call, `power_on_s5` appends exactly the eleven actions
VA_EC_EN on, 200 us, DD_ON on, SUS_PWR_ACK on, 10 ms, PCH_DPWROK_EC on,
EC_RSMRST_N on, 95 ms, EC_EN on, 200 ms, 200 ms to the trace, always
returns, and leaves `state` and every other variable as it found them. -/
theorem C2_power_on_s5_trace (w : World) :
    power_on_s5 w = { w with trace := w.trace ++
      [.gpio_set .VA_EC_EN true, .delay_us 200, .gpio_set .DD_ON true,
       .gpio_set .SUS_PWR_ACK true, .delay_ms 10, .gpio_set .PCH_DPWROK_EC true,
       .gpio_set .EC_RSMRST_N true, .delay_ms 95, .gpio_set .EC_EN true,
       .delay_ms 200, .delay_ms 200] } ∧
    (power_on_s5 w).state = w.state := by
  simp [power_on_s5_eq, s5_on_out]

/-- C3, as stated, fails: dropping the two leading power-OK writes, the
signals `power_off_s5` drives low are not the reverse of those `power_on_s5`
drives high, and SUS_PWR_ACK is driven high but never driven low. -/
theorem C3_not_exact_reverse :
    (driven false (trace_of power_off_s5)).drop 2 ≠ (driven true (trace_of power_on_s5)).reverse ∧
    Gpio.SUS_PWR_ACK ∈ driven true (trace_of power_on_s5) ∧
    Gpio.SUS_PWR_ACK ∉ driven false (trace_of power_off_s5) := by
  decide

/-- C3, amended. After its two leading power-OK writes `power_off_s5` drives
low EC_EN, EC_RSMRST_N, DD_ON, VA_EC_EN, PCH_DPWROK_EC, in that order; every
signal `power_on_s5` drives high, SUS_PWR_ACK excepted, is among them; and
leaving PCH_DPWROK_EC (driven low last) aside, the order is the reverse of
the order in which `power_on_s5` drives them high. -/
theorem C3_power_off_s5_order (w : World) :
    driven false (issued power_off_s5 w) =
      [.PCH_PWROK_EC, .PM_PWROK, .EC_EN, .EC_RSMRST_N, .DD_ON, .VA_EC_EN, .PCH_DPWROK_EC] ∧
    driven true (issued power_off_s5 w) = [] ∧
    (∀ g ∈ driven true (issued power_on_s5 w), g ≠ Gpio.SUS_PWR_ACK →
      g ∈ (driven false (issued power_off_s5 w)).drop 2) ∧
    ((driven false (issued power_off_s5 w)).drop 2).filter (fun g => g ≠ Gpio.PCH_DPWROK_EC) =
      ((driven true (issued power_on_s5 w)).filter
        (fun g => g ≠ Gpio.SUS_PWR_ACK ∧ g ≠ Gpio.PCH_DPWROK_EC)).reverse := by
  have h1 : issued power_off_s5 w = s5_off_out := by simp [issued, power_off_s5_eq]
  have h2 : issued power_on_s5 w = s5_on_out := by simp [issued, power_on_s5_eq]
  rw [h1, h2]
  decide

/-! ## Power switch -/

theorem driven_true_power_on_s5 :
    driven true (trace_of power_on_s5) =
      [.VA_EC_EN, .DD_ON, .SUS_PWR_ACK, .PCH_DPWROK_EC, .EC_RSMRST_N, .EC_EN] := by
  decide

theorem trace_of_power_on_s5 : trace_of power_on_s5 = s5_on_out := by
  decide

/-- Signals driven high by a poll outside `power_on_s5`. -/
theorem driven_true_rest (i : Inputs) (w : World) (g : Gpio)
    (hg : g ∈ driven true ([Effect.gpio_set .PWR_BTN_N
        (switch_value i.PWR_SW_N i.PWR_SW_N_again w.ps_last)] ++
      pwrgd_out i.ALL_SYS_PWRGD w.pg_last ++
      ack_out i.SUSWARN_N i.SUSC_N_PCH w.ack_last
        (switch_state i.PWR_SW_N i.PWR_SW_N_again w.ps_last (startup_state w.state)) ++
      led_out i.BUF_PLT_RST_N i.SUSC_N_PCH i.ACIN_N i.LED_PWR w.suspend_timer
          w.TF1 w.TR1 w.TMOD)) :
    g = .PWR_BTN_N ∨ g = .PM_PWROK ∨ g = .PCH_PWROK_EC ∨ g = .LED_PWR ∨ g = .LED_ACIN := by
  simp only [driven_of_gpio_writes, gpio_writes_append, gpio_writes_pwrgd_out,
    gpio_writes_ack_out, gpio_writes_led_out, List.filterMap_append, List.mem_append] at hg
  rcases hg with ((hg | hg) | hg) | hg
  · simp [gpio_writes] at hg
    exact Or.inl hg.2.symm
  · split_ifs at hg <;> simp at hg
    rcases hg with rfl | rfl <;> simp
  · split_ifs at hg
    · simp [gpio_writes, s5_off_out] at hg
    · simp at hg
  · split_ifs at hg <;> simp at hg
    all_goals first
      | (rcases hg with rfl | rfl <;> simp)
      | (rcases hg with ⟨-, rfl⟩; simp)

theorem writes_btn_startup_out (s : PowerState) : writes_to .PWR_BTN_N (startup_out s) = [] := by
  cases s <;> decide

theorem writes_btn_ac_out (a k l c : Bool) : writes_to .PWR_BTN_N (ac_out a k l c) = [] := by
  cases a <;> cases k <;> cases l <;> cases c <;> decide

theorem writes_btn_switch_out (r g l : Bool) (s : PowerState) :
    writes_to .PWR_BTN_N (switch_out r g l s) = [] := by
  cases s <;> cases r <;> cases g <;> cases l <;> decide

theorem writes_btn_pwrgd_out (p l : Bool) : writes_to .PWR_BTN_N (pwrgd_out p l) = [] := by
  cases p <;> cases l <;> decide

theorem writes_btn_rst_out (r l : Bool) : writes_to .PWR_BTN_N (rst_out r l) = [] := by
  cases r <;> cases l <;> decide

theorem writes_btn_ack_out (a s4 l : Bool) (s : PowerState) :
    writes_to .PWR_BTN_N (ack_out a s4 l s) = [] := by
  cases s <;> cases a <;> cases s4 <;> cases l <;> decide

theorem writes_btn_led_out (r s4 a lr : Bool) (st : Int) (tf1 tr1 : Bool) (tmod : Nat) :
    writes_to .PWR_BTN_N (led_out r s4 a lr st tf1 tr1 tmod) = [] := by
  rw [writes_to_of_gpio_writes, gpio_writes_led_out]
  by_cases hst : st ≤ 0 <;> cases r <;> cases s4 <;> cases a <;> simp [hst]

theorem writes_btn_poll_out (i : Inputs) (w : World) :
    writes_to .PWR_BTN_N (poll_out i w) =
      [switch_value i.PWR_SW_N i.PWR_SW_N_again w.ps_last] := by
  simp only [poll_out, before_led_out, writes_to_append, writes_btn_startup_out,
    writes_btn_ac_out, writes_btn_switch_out, writes_btn_pwrgd_out, writes_btn_rst_out,
    writes_btn_ack_out, writes_btn_led_out, List.nil_append, List.append_nil]
  simp [writes_to]

theorem ack_state_not_up (a s4 l : Bool) (s : PowerState) :
    ¬ (s = POWER_STATE_DS5 ∧ ack_state a s4 l s = POWER_STATE_S5) := by
  cases s <;> cases a <;> cases s4 <;> cases l <;> simp [ack_state, ack_fires]

/-- C4. Debounce: if the last-seen switch value is released (true), the first
sample of PWR_SW_N is low and the sample after the 10 ms delay is high, then
the poll drives none of the signals of `power_on_s5` high (so does not run
it), the switch block leaves `state` as it is and no assignment takes DS5 to
S5, `ps_last` stays true, and the one write to PWR_BTN_N forwards true. -/
theorem C4_debounce (i : Inputs) (w : World) (hl : w.ps_last = true)
    (h1 : i.PWR_SW_N = false) (h2 : i.PWR_SW_N_again = true) :
    (∀ g ∈ driven true (emitted i w), g ∉ driven true (trace_of power_on_s5)) ∧
    ¬ (trace_of power_on_s5 <:+: emitted i w) ∧
    (before_btn i w).2.state = (startup_block w).state ∧
    List.Chain' (fun a b => ¬ (a = POWER_STATE_DS5 ∧ b = POWER_STATE_S5))
      (w.state :: state_path i w) ∧
    (power_event i w).ps_last = true ∧
    writes_to .PWR_BTN_N (emitted i w) = [true] := by
  have hsw : switch_out i.PWR_SW_N i.PWR_SW_N_again w.ps_last (startup_state w.state) =
      [.delay_ms 10] := by
    simp [switch_out, press_confirmed, hl, h1, h2]
  have hss : switch_state i.PWR_SW_N i.PWR_SW_N_again w.ps_last (startup_state w.state) =
      startup_state w.state := by
    simp [switch_state, press_confirmed, hl, h1, h2]
  have hsv : switch_value i.PWR_SW_N i.PWR_SW_N_again w.ps_last = true := by
    simp [switch_value, hl, h1, h2]
  have hdr : ∀ g ∈ driven true (emitted i w),
      g = .PWR_BTN_N ∨ g = .PM_PWROK ∨ g = .PCH_PWROK_EC ∨ g = .LED_PWR ∨ g = .LED_ACIN := by
    intro g hg
    apply driven_true_rest i w g
    rw [emitted_eq, driven_of_gpio_writes, gpio_writes_poll_out, hsw] at hg
    rw [driven_of_gpio_writes]
    simpa [gpio_writes] using hg
  have hno : ∀ g ∈ driven true (emitted i w), g ∉ driven true (trace_of power_on_s5) := by
    intro g hg
    rw [driven_true_power_on_s5]
    rcases hdr g hg with rfl | rfl | rfl | rfl | rfl <;> decide
  refine ⟨hno, ?_, ?_, ?_, ?_, ?_⟩
  · intro hin
    have hmem : Effect.gpio_set .VA_EC_EN true ∈ emitted i w :=
      hin.subset (by rw [trace_of_power_on_s5]; simp [s5_on_out])
    have : Gpio.VA_EC_EN ∈ driven true (emitted i w) := by
      simp only [driven, List.mem_filterMap]
      exact ⟨_, hmem, by simp⟩
    exact hno _ this (by rw [driven_true_power_on_s5]; simp)
  · simp [before_btn_eq, startup_block_eq, hss]
  · rw [state_path_eq, hss]
    simp only [List.chain'_cons, List.chain'_singleton, and_true]
    refine ⟨?_, ?_, ?_⟩
    · rintro ⟨h, h'⟩
      simp [startup_state, h] at h'
    · rintro ⟨h, h'⟩
      rw [h] at h'
      exact PowerState.noConfusion h'
    · have hp : poll_state i w =
          ack_state i.SUSWARN_N i.SUSC_N_PCH w.ack_last (startup_state w.state) := by
        simp only [poll_state, hss]
      rw [hp]
      exact ack_state_not_up _ _ _ _
  · simp [power_event_eq, hsv]
  · rw [emitted_eq, writes_btn_poll_out, hsv]

/-- C4 at a sample input: the first poll after construction with a glitch on
the switch line. -/
theorem C4_debounce_witness :
    boot0.ps_last = true ∧
    ({ idle_inputs with PWR_SW_N := false } : Inputs).PWR_SW_N = false ∧
    ({ idle_inputs with PWR_SW_N := false } : Inputs).PWR_SW_N_again = true ∧
    (power_event { idle_inputs with PWR_SW_N := false } boot0).ps_last = true ∧
    writes_to .PWR_BTN_N (emitted { idle_inputs with PWR_SW_N := false } boot0) = [true] :=
  ⟨rfl, rfl, rfl,
    (C4_debounce { idle_inputs with PWR_SW_N := false } boot0 rfl rfl rfl).2.2.2.2.1,
    (C4_debounce { idle_inputs with PWR_SW_N := false } boot0 rfl rfl rfl).2.2.2.2.2⟩

/-- C5. Every poll writes PWR_BTN_N exactly once; the value written is the
value the poll stores in `ps_last`, which is the first sample, or the prior
value when the press was discarded; and when a press is confirmed while
`state` is DS5, the trace up to that write ends with the whole of
`power_on_s5`, `state` is S5 at the write, and the write forwards false. -/
theorem C5_power_button_forward (i : Inputs) (w : World) :
    writes_to .PWR_BTN_N (emitted i w) = [(power_event i w).ps_last] ∧
    (power_event i w).ps_last =
      (if (!i.PWR_SW_N && w.ps_last) && (i.PWR_SW_N_again != i.PWR_SW_N)
        then w.ps_last else i.PWR_SW_N) ∧
    (∃ post, (power_event i w).trace =
      (before_btn i w).2.trace ++ .gpio_set .PWR_BTN_N (before_btn i w).1 :: post ∧
      writes_to .PWR_BTN_N post = [] ∧
      writes_to .PWR_BTN_N (issued (fun v => (before_btn i v).2) w) = [] ∧
      (before_btn i w).1 = (power_event i w).ps_last) ∧
    (i.PWR_SW_N = false → w.ps_last = true → i.PWR_SW_N_again = false →
      (startup_block w).state = POWER_STATE_DS5 →
      (before_btn i w).2.state = POWER_STATE_S5 ∧
      (before_btn i w).1 = false ∧
      ∃ pre, (before_btn i w).2.trace = w.trace ++ pre ++ trace_of power_on_s5) := by
  refine ⟨?_, ?_, ?_, ?_⟩
  · rw [emitted_eq, writes_btn_poll_out]
    simp [power_event_eq]
  · simp [power_event_eq, switch_value]
  · refine ⟨pwrgd_out i.ALL_SYS_PWRGD w.pg_last ++ rst_out i.BUF_PLT_RST_N w.rst_last ++
      ack_out i.SUSWARN_N i.SUSC_N_PCH w.ack_last
        (switch_state i.PWR_SW_N i.PWR_SW_N_again w.ps_last (startup_state w.state)) ++
      led_out i.BUF_PLT_RST_N i.SUSC_N_PCH i.ACIN_N i.LED_PWR w.suspend_timer
        w.TF1 w.TR1 w.TMOD, ?_, ?_, ?_, ?_⟩
    · simp [power_event_eq, before_btn_eq, poll_out, before_led_out]
    · simp [writes_btn_pwrgd_out, writes_btn_rst_out, writes_btn_ack_out, writes_btn_led_out]
    · simp [issued, before_btn_eq, writes_btn_startup_out, writes_btn_ac_out,
        writes_btn_switch_out]
    · simp [power_event_eq, before_btn_eq]
  · intro h1 hl h2 hs
    have hs' : startup_state w.state = POWER_STATE_DS5 := by
      simpa [startup_block_eq] using hs
    refine ⟨?_, ?_, startup_out w.state ++ ac_out i.ACIN_N i.pmc_sci w.ac_last w.ac_send_sci ++
      [.delay_ms 10], ?_⟩
    · simp [before_btn_eq, switch_state, press_confirmed, h1, hl, h2, hs']
    · simp [before_btn_eq, switch_value, h1, hl, h2]
    · simp [before_btn_eq, switch_out, press_confirmed, h1, hl, h2, hs', trace_of_power_on_s5]

/-- C5 at a sample input: a confirmed press at the first poll after
construction. -/
theorem C5_power_button_forward_witness :
    (before_btn { idle_inputs with PWR_SW_N := false, PWR_SW_N_again := false } boot0).2.state =
      POWER_STATE_S5 ∧
    (before_btn { idle_inputs with PWR_SW_N := false, PWR_SW_N_again := false } boot0).1 = false :=
  ⟨((C5_power_button_forward { idle_inputs with PWR_SW_N := false, PWR_SW_N_again := false }
      boot0).2.2.2 rfl rfl rfl rfl).1,
   ((C5_power_button_forward { idle_inputs with PWR_SW_N := false, PWR_SW_N_again := false }
      boot0).2.2.2 rfl rfl rfl rfl).2.1⟩

/-! ### Battery and SCI calls of one poll -/

theorem battery_calls_poll_out (i : Inputs) (w : World) :
    battery_calls (poll_out i w) =
      if i.ACIN_N != w.ac_last then
        [if i.ACIN_N then .battery_charger_disable else .battery_charger_enable, .battery_debug]
      else [] := by
  have h1 : ∀ s, battery_calls (startup_out s) = [] := by intro s; cases s <;> decide
  have h2 : ∀ r g l s, battery_calls (switch_out r g l s) = [] := by
    intro r g l s; cases s <;> cases r <;> cases g <;> cases l <;> decide
  have h3 : ∀ p l, battery_calls (pwrgd_out p l) = [] := by
    intro p l; cases p <;> cases l <;> decide
  have h4 : ∀ r l, battery_calls (rst_out r l) = [] := by
    intro r l; cases r <;> cases l <;> decide
  have h5 : ∀ a s4 l s, battery_calls (ack_out a s4 l s) = [] := by
    intro a s4 l s; cases s <;> cases a <;> cases s4 <;> cases l <;> decide
  have h6 : ∀ r s4 a lr st tf1 tr1 tmod,
      battery_calls (led_out r s4 a lr st tf1 tr1 tmod) = [] := by
    intro r s4 a lr st tf1 tr1 tmod
    by_cases hst : st ≤ 0 <;> cases r <;> cases s4 <;> cases a <;> cases tf1 <;> cases tr1 <;>
      simp [led_out, led_suspend_out, timer_reload, battery_calls, hst]
  have h7 : ∀ a k l c, battery_calls (ac_out a k l c) =
      if a != l then
        [if a then .battery_charger_disable else .battery_charger_enable, .battery_debug]
      else [] := by
    intro a k l c; cases a <;> cases k <;> cases l <;> cases c <;> decide
  simp only [poll_out, before_led_out, battery_calls_append, h1, h2, h3, h4, h5, h6, h7,
    List.nil_append, List.append_nil]
  simp [battery_calls]

theorem sci_sends_poll_out (i : Inputs) (w : World) :
    sci_sends (poll_out i w) =
      if w.ac_send_sci || (i.ACIN_N != w.ac_last) then [(.PMC_1, 0x16, i.pmc_sci)] else [] := by
  have h1 : ∀ s, sci_sends (startup_out s) = [] := by intro s; cases s <;> decide
  have h2 : ∀ r g l s, sci_sends (switch_out r g l s) = [] := by
    intro r g l s; cases s <;> cases r <;> cases g <;> cases l <;> decide
  have h3 : ∀ p l, sci_sends (pwrgd_out p l) = [] := by
    intro p l; cases p <;> cases l <;> decide
  have h4 : ∀ r l, sci_sends (rst_out r l) = [] := by
    intro r l; cases r <;> cases l <;> decide
  have h5 : ∀ a s4 l s, sci_sends (ack_out a s4 l s) = [] := by
    intro a s4 l s; cases s <;> cases a <;> cases s4 <;> cases l <;> decide
  have h6 : ∀ r s4 a lr st tf1 tr1 tmod,
      sci_sends (led_out r s4 a lr st tf1 tr1 tmod) = [] := by
    intro r s4 a lr st tf1 tr1 tmod
    by_cases hst : st ≤ 0 <;> cases r <;> cases s4 <;> cases a <;> cases tf1 <;> cases tr1 <;>
      simp [led_out, led_suspend_out, timer_reload, sci_sends, hst]
  have h7 : ∀ a k l c, sci_sends (ac_out a k l c) =
      if c || (a != l) then [(.PMC_1, 0x16, k)] else [] := by
    intro a k l c; cases a <;> cases k <;> cases l <;> cases c <;> decide
  simp only [poll_out, before_led_out, sci_sends_append, h1, h2, h3, h4, h5, h6, h7,
    List.nil_append, List.append_nil]
  simp [sci_sends]

theorem sfr_writes_poll_out (i : Inputs) (w : World) :
    sfr_writes (poll_out i w) =
      if blinking i then
        (if w.TF1 then [(.TR1, 0), (.TF1, 0)] else []) ++
        (if timer_reload w.TF1 w.TR1 then
          [(.TMOD, (w.TMOD &&& 0x0F) ||| 0x10), (.TH1, 0xE2), (.TL1, 0x0C), (.TR1, 1)]
         else [])
      else [] := by
  have h1 : ∀ s, sfr_writes (startup_out s) = [] := by intro s; cases s <;> decide
  have h2 : ∀ r g l s, sfr_writes (switch_out r g l s) = [] := by
    intro r g l s; cases s <;> cases r <;> cases g <;> cases l <;> decide
  have h3 : ∀ p l, sfr_writes (pwrgd_out p l) = [] := by
    intro p l; cases p <;> cases l <;> decide
  have h4 : ∀ r l, sfr_writes (rst_out r l) = [] := by
    intro r l; cases r <;> cases l <;> decide
  have h5 : ∀ a s4 l s, sfr_writes (ack_out a s4 l s) = [] := by
    intro a s4 l s; cases s <;> cases a <;> cases s4 <;> cases l <;> decide
  have h7 : ∀ a k l c, sfr_writes (ac_out a k l c) = [] := by
    intro a k l c; cases a <;> cases k <;> cases l <;> cases c <;> decide
  simp only [poll_out, before_led_out, sfr_writes_append, h1, h2, h3, h4, h5, h7,
    List.nil_append, List.append_nil]
  by_cases hst : w.suspend_timer ≤ 0 <;> cases hr : i.BUF_PLT_RST_N <;>
    cases h4 : i.SUSC_N_PCH <;> cases i.ACIN_N <;> cases w.TF1 <;> cases w.TR1 <;>
    simp [led_out, led_suspend_out, timer_reload, sfr_writes, blinking, hst, hr, h4]

/-! ### Poll sequences -/

theorem poll_trace (p : Poll) (w : World) :
    (poll p w).trace = w.trace ++ poll_out p.inputs (host_step p w) := by
  simp [poll, power_event_eq, host_step]

theorem run_trace_grows (ps : List Poll) (w : World) :
    ∃ l, (run ps w).trace = w.trace ++ l := by
  induction ps generalizing w with
  | nil => exact ⟨[], by simp [run]⟩
  | cons p ps ih =>
    obtain ⟨l, hl⟩ := ih (poll p w)
    exact ⟨poll_out p.inputs (host_step p w) ++ l, by
      simp only [run]; rw [hl, poll_trace, List.append_assoc]⟩

theorem run_trace (ps : List Poll) (w : World) :
    (run ps w).trace = w.trace ++ run_out ps w := by
  obtain ⟨l, hl⟩ := run_trace_grows ps w
  simp [run_out, hl]

theorem run_out_nil (w : World) : run_out [] w = [] := by
  simp [run_out, run]

theorem run_out_cons (p : Poll) (ps : List Poll) (w : World) :
    run_out (p :: ps) w = poll_out p.inputs (host_step p w) ++ run_out ps (poll p w) := by
  have h : (run (p :: ps) w).trace =
      w.trace ++ (poll_out p.inputs (host_step p w) ++ run_out ps (poll p w)) := by
    simp only [run]
    rw [run_trace, poll_trace, List.append_assoc]
  simp [run_out, h]

theorem run_out_append (ps qs : List Poll) (w : World) :
    run_out (ps ++ qs) w = run_out ps w ++ run_out qs (run ps w) := by
  induction ps generalizing w with
  | nil => simp [run_out_nil, run]
  | cons p ps ih => simp [run_out_cons, ih, run]

theorem poll_state_ne_default (i : Inputs) (w : World) :
    poll_state i w ≠ POWER_STATE_DEFAULT := by
  unfold poll_state ack_state switch_state startup_state
  split_ifs <;> simp_all

theorem run_ne_default (ps : List Poll) (w : World) (h : w.state ≠ POWER_STATE_DEFAULT) :
    (run ps w).state ≠ POWER_STATE_DEFAULT := by
  induction ps generalizing w with
  | nil => exact h
  | cons p ps ih =>
    exact ih (poll p w) (by rw [poll_eq_state]; exact poll_state_ne_default _ _)

theorem reachable_ne_default (w : World) (h : Reachable w) : w.state ≠ POWER_STATE_DEFAULT := by
  obtain ⟨tmod, th1, tl1, tr1, tf1, p, ps, rfl⟩ := h
  exact run_ne_default ps _ (by rw [poll_eq_state]; exact poll_state_ne_default _ _)

/-! ## Unchanged inputs and the adapter line -/

/-- C6, as stated, fails: after one idle poll, a second poll on the same
inputs sees no edge on any line, yet it writes PWR_BTN_N, LED_PWR and
LED_ACIN. -/
theorem C6_idle_poll_still_writes :
    Reachable (run [idle_poll] boot0) ∧
    no_edge idle_poll.inputs (run [idle_poll] boot0) ∧
    gpio_writes (emitted idle_poll.inputs (host_step idle_poll (run [idle_poll] boot0))) =
      [(.PWR_BTN_N, true), (.LED_PWR, false), (.LED_ACIN, false)] := by
  refine ⟨⟨0, 0, 0, false, false, idle_poll, [], rfl⟩, ?_, ?_⟩
  · unfold no_edge; decide
  · decide

theorem quiet_led_out (r s4 a lr : Bool) (st : Int) (tf1 tr1 : Bool) (tmod : Nat) :
    ∀ e ∈ led_out r s4 a lr st tf1 tr1 tmod, quiet_action e = true := by
  by_cases hst : st ≤ 0 <;> cases r <;> cases s4 <;> cases a <;> cases tf1 <;> cases tr1 <;>
    simp [led_out, led_suspend_out, timer_reload, quiet_action, hst]

/-- C6, amended. In a poll that follows a reachable world and sees no edge on
any monitored line, the only GPIO writes are the forward of the unchanged
switch value to PWR_BTN_N and the LED writes, no delay is waited, no
collaborator other than a pending `pmc_sci` is called, and `state` is not
assigned a new value anywhere. -/
theorem C6_unchanged_input (w : World) (hw : Reachable w) (p : Poll)
    (hn : no_edge p.inputs w) :
    (∀ gb ∈ gpio_writes (emitted p.inputs (host_step p w)),
      gb.1 = .PWR_BTN_N ∨ gb.1 = .LED_PWR ∨ gb.1 = .LED_ACIN) ∧
    writes_to .PWR_BTN_N (emitted p.inputs (host_step p w)) = [w.ps_last] ∧
    (∀ e ∈ emitted p.inputs (host_step p w), quiet_action e = true) ∧
    state_path p.inputs (host_step p w) = [w.state, w.state, w.state] ∧
    (poll p w).state = w.state := by
  obtain ⟨hac, hps, hpg, hrst, hs4, hack⟩ := hn
  have hd := reachable_ne_default w hw
  have e1 : startup_state w.state = w.state := by simp [startup_state, hd]
  have e2 : ∀ g s, switch_state w.ps_last g w.ps_last s = s := by
    intro g s; cases w.ps_last <;> simp [switch_state, press_confirmed]
  have e3 : ∀ s4 s, ack_state w.ack_last s4 w.ack_last s = s := by
    intro s4 s; cases w.ack_last <;> simp [ack_state, ack_fires]
  have e4 : ∀ g, switch_value w.ps_last g w.ps_last = w.ps_last := by
    intro g; cases w.ps_last <;> simp [switch_value]
  have hout : poll_out p.inputs (host_step p w) =
      (if w.ac_send_sci then [.pmc_sci .PMC_1 0x16 p.inputs.pmc_sci] else []) ++
      [.gpio_set .PWR_BTN_N w.ps_last] ++
      led_out p.inputs.BUF_PLT_RST_N p.inputs.SUSC_N_PCH p.inputs.ACIN_N p.inputs.LED_PWR
        w.suspend_timer (w.TF1 || p.timer1_overflow) w.TR1 w.TMOD := by
    have o1 : startup_out w.state = [] := by simp [startup_out, hd]
    have o2 : ∀ k, ac_out w.ac_last k w.ac_last w.ac_send_sci =
        if w.ac_send_sci then [.pmc_sci .PMC_1 0x16 k] else [] := by
      intro k; cases w.ac_last <;> cases w.ac_send_sci <;> simp [ac_out]
    have o3 : ∀ g s, switch_out w.ps_last g w.ps_last s = [] := by
      intro g s; cases w.ps_last <;> simp [switch_out, press_confirmed]
    have o4 : pwrgd_out w.pg_last w.pg_last = [] := by
      cases w.pg_last <;> simp [pwrgd_out]
    have o5 : rst_out w.rst_last w.rst_last = [] := by
      cases w.rst_last <;> simp [rst_out]
    have o6 : ∀ s4 s, ack_out w.ack_last s4 w.ack_last s = [] := by
      intro s4 s; cases w.ack_last <;> simp [ack_out, ack_fires]
    simp only [poll_out, before_led_out, host_step, hac, hps, hpg, hrst, hack, o1, o2, o3, o4,
      o5, o6, e4, List.nil_append, List.append_nil]
  rw [emitted_eq, hout]
  refine ⟨?_, ?_, ?_, ?_, ?_⟩
  · intro gb hgb
    simp only [gpio_writes_append, gpio_writes_led_out, List.mem_append] at hgb
    rcases hgb with (hgb | hgb) | hgb
    · split_ifs at hgb <;> simp [gpio_writes] at hgb
    · simp [gpio_writes] at hgb
      simp [hgb]
    · split_ifs at hgb <;> simp at hgb
      all_goals (rcases hgb with rfl | rfl <;> simp)
  · simp only [writes_to_append, writes_btn_led_out, List.append_nil]
    split_ifs <;> simp [writes_to]
  · intro e he
    simp only [List.mem_append] at he
    rcases he with (he | he) | he
    · split_ifs at he <;> simp at he
      subst he; rfl
    · simp at he
      subst he; rfl
    · exact quiet_led_out _ _ _ _ _ _ _ _ e he
  · simp [state_path_eq, host_step, poll_state, hps, hack, e1, e2, e3]
  · simp [poll_eq_state, poll_state, hps, hack, e1, e2, e3]

/-- C6 at a sample input: a second idle poll after a first one. -/
theorem C6_unchanged_input_witness :
    Reachable (run [idle_poll] boot0) ∧ no_edge idle_poll.inputs (run [idle_poll] boot0) ∧
    (poll idle_poll (run [idle_poll] boot0)).state = (run [idle_poll] boot0).state :=
  ⟨⟨0, 0, 0, false, false, idle_poll, [], rfl⟩, by unfold no_edge; decide,
    (C6_unchanged_input (run [idle_poll] boot0) ⟨0, 0, 0, false, false, idle_poll, [], rfl⟩
      idle_poll (by unfold no_edge; decide)).2.2.2.2⟩

/-- C7. In one poll: if the sample of ACIN_N differs from `ac_last`, the
battery collaborator is called exactly twice, first
`battery_charger_disable` (sample high) or `battery_charger_enable` (sample
low), then `battery_debug`; `main_cycle` becomes 0 and `ac_send_sci` is set
before the SCI step. If the sample equals `ac_last`, the battery
collaborator is not called, `main_cycle` keeps its value and the edge step
leaves the world as it is. In both cases `ac_last` ends as the sample. -/
theorem C7_ac_edge (i : Inputs) (w : World) :
    (i.ACIN_N ≠ w.ac_last →
      battery_calls (emitted i w) =
        [if i.ACIN_N then .battery_charger_disable else .battery_charger_enable,
         .battery_debug] ∧
      (power_event i w).main_cycle = 0 ∧
      (ac_edge_block i.ACIN_N (startup_block w)).ac_send_sci = true) ∧
    (i.ACIN_N = w.ac_last →
      battery_calls (emitted i w) = [] ∧
      (power_event i w).main_cycle = w.main_cycle ∧
      ac_edge_block i.ACIN_N (startup_block w) = startup_block w) ∧
    (power_event i w).ac_last = i.ACIN_N := by
  refine ⟨?_, ?_, ?_⟩
  · intro h
    have hb : (i.ACIN_N != w.ac_last) = true := by simpa using h
    refine ⟨?_, ?_, ?_⟩
    · rw [emitted_eq, battery_calls_poll_out, if_pos hb]
    · simp [power_event_eq, hb]
    · simp [ac_edge_block, startup_block_eq, hb]
  · intro h
    refine ⟨?_, ?_, ?_⟩
    · rw [emitted_eq, battery_calls_poll_out, h]; simp
    · simp [power_event_eq, h]
    · simp [ac_edge_block, startup_block_eq, h]
  · simp [power_event_eq]

/-- C7 at a sample input: the adapter is plugged in at the first poll. -/
theorem C7_ac_edge_witness :
    plugged_poll.inputs.ACIN_N ≠ boot0.ac_last ∧
    battery_calls (emitted plugged_poll.inputs boot0) =
      [.battery_charger_enable, .battery_debug] ∧
    (power_event plugged_poll.inputs boot0).main_cycle = 0 :=
  ⟨by decide, ((C7_ac_edge plugged_poll.inputs boot0).1 (by decide)).1,
    ((C7_ac_edge plugged_poll.inputs boot0).1 (by decide)).2.1⟩

/-! ## SCI notification -/

theorem poll_ac_fields (p : Poll) (w : World) :
    (poll p w).ac_last = p.inputs.ACIN_N ∧
    (poll p w).ac_send_sci =
      ((w.ac_send_sci || (p.inputs.ACIN_N != w.ac_last)) && !p.inputs.pmc_sci) := by
  simp [poll, power_event_eq, host_step]

theorem sci_sends_poll (p : Poll) (w : World) :
    sci_sends (poll_out p.inputs (host_step p w)) =
      if w.ac_send_sci || (p.inputs.ACIN_N != w.ac_last) then
        [(.PMC_1, 0x16, p.inputs.pmc_sci)] else [] := by
  rw [sci_sends_poll_out]; simp [host_step]

theorem battery_calls_poll (p : Poll) (w : World) :
    battery_calls (poll_out p.inputs (host_step p w)) =
      if p.inputs.ACIN_N != w.ac_last then
        [if p.inputs.ACIN_N then .battery_charger_disable else .battery_charger_enable,
         .battery_debug]
      else [] := by
  rw [battery_calls_poll_out]; simp [host_step]

/-- Without an edge on the adapter line, a pending SCI is sent until accepted
and nothing is sent otherwise; the battery collaborator is not called. -/
theorem run_no_ac_edge (ps : List Poll) (w : World)
    (h : ∀ p ∈ ps, p.inputs.ACIN_N = w.ac_last) :
    sci_sends (run_out ps w) = (if w.ac_send_sci then retry_sends ps else []) ∧
    battery_calls (run_out ps w) = [] ∧
    (run ps w).ac_last = w.ac_last := by
  induction ps generalizing w with
  | nil => simp [run_out_nil, retry_sends, run, sci_sends, battery_calls]
  | cons p ps ih =>
    have hp : p.inputs.ACIN_N = w.ac_last := h p (List.mem_cons_self _ _)
    have hf := poll_ac_fields p w
    have hl : (poll p w).ac_last = w.ac_last := by rw [hf.1, hp]
    have hs : (poll p w).ac_send_sci = (w.ac_send_sci && !p.inputs.pmc_sci) := by
      rw [hf.2, hp]; simp
    have ih' := ih (poll p w) (by
      intro q hq
      rw [hl]
      exact h q (List.mem_cons_of_mem _ hq))
    rw [run_out_cons, sci_sends_append, battery_calls_append, sci_sends_poll,
      battery_calls_poll, ih'.1, ih'.2.1, hs, hp]
    refine ⟨?_, ?_, ?_⟩
    · cases w.ac_send_sci <;> cases hk : p.inputs.pmc_sci <;> simp [retry_sends, hk]
    · simp
    · simp only [run]; rw [ih'.2.2, hl]

/-- With an edge on the adapter line at the first poll and none afterwards,
the SCI is sent until accepted whatever the flag was before. -/
theorem run_one_ac_edge (p : Poll) (ps : List Poll) (w : World)
    (hp : p.inputs.ACIN_N ≠ w.ac_last) (h : ∀ q ∈ ps, q.inputs.ACIN_N = p.inputs.ACIN_N) :
    sci_sends (run_out (p :: ps) w) = retry_sends (p :: ps) ∧
    battery_calls (run_out (p :: ps) w) =
      [if p.inputs.ACIN_N then .battery_charger_disable else .battery_charger_enable,
       .battery_debug] := by
  have hb : (p.inputs.ACIN_N != w.ac_last) = true := by simpa using hp
  have hf := poll_ac_fields p w
  have hs : (poll p w).ac_send_sci = !p.inputs.pmc_sci := by rw [hf.2, hb]; simp
  have hr := run_no_ac_edge ps (poll p w) (by rw [hf.1]; exact h)
  rw [run_out_cons, sci_sends_append, battery_calls_append, sci_sends_poll,
    battery_calls_poll, hr.1, hr.2.1, hs, hb]
  refine ⟨?_, ?_⟩
  · cases hk : p.inputs.pmc_sci <;> simp [retry_sends, hk]
  · simp

theorem retry_sends_code (ps : List Poll) :
    ∀ s ∈ retry_sends ps, s.1 = Pmc.PMC_1 ∧ s.2.1 = 0x16 := by
  induction ps with
  | nil => simp [retry_sends]
  | cons p ps ih =>
    intro s hs
    simp only [retry_sends, List.mem_cons] at hs
    rcases hs with rfl | hs
    · exact ⟨rfl, rfl⟩
    · split_ifs at hs
      · simp at hs
      · exact ih s hs

theorem retry_sends_accepted (ps : List Poll) :
    ((retry_sends ps).filter fun s => s.2.2).length =
      if ∃ p ∈ ps, p.inputs.pmc_sci = true then 1 else 0 := by
  induction ps with
  | nil => simp [retry_sends]
  | cons p ps ih =>
    cases hk : p.inputs.pmc_sci
    · simp [retry_sends, hk, ih]
    · simp [retry_sends, hk]

/-- C8. In every poll `pmc_sci(&PMC_1, 0x16)` is called exactly once if
`ac_send_sci` is set after the adapter edge step and not at all otherwise,
and `ac_send_sci` ends set exactly when it was set there and the call
returned false. Hence over polls without an adapter edge a pending SCI is
sent at every poll up to and including the first accepted one, and, when
none is pending, nothing is sent. -/
theorem C8_sci_retry (i : Inputs) (w : World) :
    sci_sends (emitted i w) =
      (if (ac_edge_block i.ACIN_N (startup_block w)).ac_send_sci
        then [(.PMC_1, 0x16, i.pmc_sci)] else []) ∧
    (power_event i w).ac_send_sci =
      ((ac_edge_block i.ACIN_N (startup_block w)).ac_send_sci && !i.pmc_sci) ∧
    (ac_edge_block i.ACIN_N (startup_block w)).ac_send_sci =
      (w.ac_send_sci || (i.ACIN_N != w.ac_last)) ∧
    (∀ ps : List Poll, (∀ p ∈ ps, p.inputs.ACIN_N = w.ac_last) →
      sci_sends (run_out ps w) = (if w.ac_send_sci then retry_sends ps else [])) := by
  have he : (ac_edge_block i.ACIN_N (startup_block w)).ac_send_sci =
      (w.ac_send_sci || (i.ACIN_N != w.ac_last)) := by
    cases ha : i.ACIN_N <;> cases hl : w.ac_last <;> cases hc : w.ac_send_sci <;>
      simp [ac_edge_block, startup_block_eq, ha, hl, hc]
  refine ⟨?_, ?_, he, ?_⟩
  · rw [emitted_eq, sci_sends_poll_out, he]
  · rw [he]; simp [power_event_eq]
  · intro ps h
    exact (run_no_ac_edge ps w h).1

/-- C8 at a sample input: from construction the SCI is pending; the first
send is refused, the second accepted, the third poll sends nothing. -/
theorem C8_sci_retry_witness :
    (∀ p ∈ [{ idle_poll with inputs := { idle_inputs with pmc_sci := false } }, idle_poll,
        idle_poll], p.inputs.ACIN_N = boot0.ac_last) ∧
    sci_sends (run_out [{ idle_poll with inputs := { idle_inputs with pmc_sci := false } },
        idle_poll, idle_poll] boot0) = [(.PMC_1, 0x16, false), (.PMC_1, 0x16, true)] :=
  ⟨by decide, (C8_sci_retry idle_inputs boot0).2.2.2
    [{ idle_poll with inputs := { idle_inputs with pmc_sci := false } }, idle_poll, idle_poll]
    (by decide)⟩

/-- C9, as stated, fails: the adapter line is high at the first poll and low
at the second (one transition, high to low), the channel accepts every send,
and two notifications are accepted, because `ac_send_sci` starts set. -/
theorem C9_two_notifications :
    boot0.ac_last = true ∧ idle_poll.inputs.ACIN_N = true ∧
    plugged_poll.inputs.ACIN_N = false ∧
    accepted_sends (run [idle_poll, plugged_poll] boot0).trace =
      [(.PMC_1, 0x16, true), (.PMC_1, 0x16, true)] := by
  decide

/-- C9, amended. From construction, over polls in which ACIN_N reads high
throughout `pre` and low throughout the non-empty `post`:
`battery_charger_enable` is called exactly once, followed by
`battery_debug`, and `battery_charger_disable` never; every `pmc_sci` call
is on PMC_1 with code 0x16; the calls are those of the retry policy over
`pre` (the notification pending at construction) followed by those over
`post`; at most one call is accepted during `pre`, and exactly one during
`post` provided the channel accepts at some poll of `post`. -/
theorem C9_single_plug_in (tmod th1 tl1 : Nat) (tr1 tf1 : Bool) (pre post : List Poll)
    (hpre : ∀ p ∈ pre, p.inputs.ACIN_N = true) (hpost : ∀ p ∈ post, p.inputs.ACIN_N = false)
    (hne : post ≠ []) :
    battery_calls (run (pre ++ post) (boot tmod th1 tl1 tr1 tf1)).trace =
      [.battery_charger_enable, .battery_debug] ∧
    (∀ s ∈ sci_sends (run (pre ++ post) (boot tmod th1 tl1 tr1 tf1)).trace,
      s.1 = Pmc.PMC_1 ∧ s.2.1 = 0x16) ∧
    sci_sends (run (pre ++ post) (boot tmod th1 tl1 tr1 tf1)).trace =
      retry_sends pre ++ retry_sends post ∧
    (accepted_sends (run pre (boot tmod th1 tl1 tr1 tf1)).trace).length ≤ 1 ∧
    ((∃ p ∈ post, p.inputs.pmc_sci = true) →
      (accepted_sends (run_out post (run pre (boot tmod th1 tl1 tr1 tf1)))).length = 1) := by
  obtain ⟨q, qs, rfl⟩ := List.exists_cons_of_ne_nil hne
  have h1 := run_no_ac_edge pre (boot tmod th1 tl1 tr1 tf1) (by
    intro p hp; rw [hpre p hp]; rfl)
  have hq : q.inputs.ACIN_N = false := hpost q (List.mem_cons_self _ _)
  have h2 := run_one_ac_edge q qs (run pre (boot tmod th1 tl1 tr1 tf1))
    (by rw [h1.2.2, hq]; simp [boot])
    (by intro r hr; rw [hq]; exact hpost r (List.mem_cons_of_mem _ hr))
  have hb : (boot tmod th1 tl1 tr1 tf1).trace = [] := rfl
  have hsc : sci_sends (run (pre ++ q :: qs) (boot tmod th1 tl1 tr1 tf1)).trace =
      retry_sends pre ++ retry_sends (q :: qs) := by
    rw [run_trace, hb, List.nil_append, run_out_append, sci_sends_append, h1.1, h2.1]
    simp [boot]
  refine ⟨?_, ?_, hsc, ?_, ?_⟩
  · rw [run_trace, hb, List.nil_append, run_out_append, battery_calls_append, h1.2.1, h2.2, hq]
    simp
  · intro s hs
    rw [hsc, List.mem_append] at hs
    rcases hs with hs | hs
    · exact retry_sends_code _ s hs
    · exact retry_sends_code _ s hs
  · have : sci_sends (run pre (boot tmod th1 tl1 tr1 tf1)).trace = retry_sends pre := by
      rw [run_trace, hb, List.nil_append, h1.1]; simp [boot]
    rw [accepted_sends, this, retry_sends_accepted]
    split_ifs <;> simp
  · intro hex
    rw [accepted_sends, h2.1, retry_sends_accepted, if_pos hex]

/-- C9 at a sample input: one idle poll, then the adapter is plugged in. -/
theorem C9_single_plug_in_witness :
    (∀ p ∈ [idle_poll], p.inputs.ACIN_N = true) ∧
    (∀ p ∈ [plugged_poll], p.inputs.ACIN_N = false) ∧
    battery_calls (run ([idle_poll] ++ [plugged_poll]) (boot 0 0 0 false false)).trace =
      [.battery_charger_enable, .battery_debug] :=
  ⟨by decide, by decide,
    (C9_single_plug_in 0 0 0 false false [idle_poll] [plugged_poll] (by decide) (by decide)
      (by decide)).1⟩

/-- The blocks before the LED step do not write the LEDs. -/
theorem no_led_writes (i : Inputs) (w : World) (g : Gpio) (hg : g = .LED_PWR ∨ g = .LED_ACIN) :
    (gpio_writes (switch_out i.PWR_SW_N i.PWR_SW_N_again w.ps_last
        (startup_state w.state))).filterMap
      (fun gb => if gb.1 = g then some gb.2 else none) = [] ∧
    (gpio_writes (pwrgd_out i.ALL_SYS_PWRGD w.pg_last)).filterMap
      (fun gb => if gb.1 = g then some gb.2 else none) = [] ∧
    (gpio_writes (ack_out i.SUSWARN_N i.SUSC_N_PCH w.ack_last
        (switch_state i.PWR_SW_N i.PWR_SW_N_again w.ps_last (startup_state w.state)))).filterMap
      (fun gb => if gb.1 = g then some gb.2 else none) = [] := by
  rw [gpio_writes_switch_out, gpio_writes_pwrgd_out, gpio_writes_ack_out]
  rcases hg with rfl | rfl
  · refine ⟨?_, ?_, ?_⟩ <;> split_ifs <;> decide
  · refine ⟨?_, ?_, ?_⟩ <;> split_ifs <;> decide

/-- C10. In every poll in which BUF_PLT_RST_N reads true, whatever the other
inputs and the world, the LED step issues exactly LED_PWR on then LED_ACIN
off; these are the only writes to the two LEDs in the poll (so LED_PWR is
not written with the negation of its read-back), `suspend_timer` keeps its
value, and no timer-1 register is written or changed. -/
theorem C10_indicator_running (i : Inputs) (w : World) (h : i.BUF_PLT_RST_N = true) :
    (power_event i w).trace =
      (before_led i w).trace ++ [.gpio_set .LED_PWR true, .gpio_set .LED_ACIN false] ∧
    writes_to .LED_PWR (emitted i w) = [true] ∧
    writes_to .LED_ACIN (emitted i w) = [false] ∧
    (power_event i w).suspend_timer = w.suspend_timer ∧
    sfr_writes (emitted i w) = [] ∧
    ((power_event i w).TMOD = w.TMOD ∧ (power_event i w).TH1 = w.TH1 ∧
      (power_event i w).TL1 = w.TL1 ∧ (power_event i w).TR1 = w.TR1 ∧
      (power_event i w).TF1 = w.TF1) := by
  have hbl : blinking i = false := by simp [blinking, h]
  have hled : gpio_writes (led_out i.BUF_PLT_RST_N i.SUSC_N_PCH i.ACIN_N i.LED_PWR
      w.suspend_timer w.TF1 w.TR1 w.TMOD) = [(.LED_PWR, true), (.LED_ACIN, false)] := by
    rw [gpio_writes_led_out, h]; rfl
  have hnl := no_led_writes i w .LED_PWR (Or.inl rfl)
  have hna := no_led_writes i w .LED_ACIN (Or.inr rfl)
  refine ⟨?_, ?_, ?_, ?_, ?_, ?_⟩
  · simp [power_event_eq, before_led_eq, poll_out, led_out, h]
  · rw [emitted_eq, writes_to_of_gpio_writes, gpio_writes_poll_out]
    simp only [hled, List.filterMap_append, List.filterMap_cons, hnl.1, hnl.2.1, hnl.2.2]
    simp
  · rw [emitted_eq, writes_to_of_gpio_writes, gpio_writes_poll_out]
    simp only [hled, List.filterMap_append, List.filterMap_cons, hna.1, hna.2.1, hna.2.2]
    simp
  · simp [power_event_eq, hbl]
  · rw [emitted_eq, sfr_writes_poll_out, hbl]; simp
  · simp [power_event_eq, hbl]

/-- C10 at a sample input: the reset line reads true at the first poll while
the S4 line reads true and the adapter is plugged in. -/
theorem C10_indicator_running_witness :
    ({ idle_inputs with BUF_PLT_RST_N := true, SUSC_N_PCH := true, ACIN_N := false }
      : Inputs).BUF_PLT_RST_N = true ∧
    writes_to .LED_PWR (emitted
      { idle_inputs with BUF_PLT_RST_N := true, SUSC_N_PCH := true, ACIN_N := false } boot0) =
      [true] ∧
    writes_to .LED_ACIN (emitted
      { idle_inputs with BUF_PLT_RST_N := true, SUSC_N_PCH := true, ACIN_N := false } boot0) =
      [false] :=
  ⟨rfl,
    (C10_indicator_running
      { idle_inputs with BUF_PLT_RST_N := true, SUSC_N_PCH := true, ACIN_N := false } boot0
      rfl).2.1,
    (C10_indicator_running
      { idle_inputs with BUF_PLT_RST_N := true, SUSC_N_PCH := true, ACIN_N := false } boot0
      rfl).2.2.1⟩

/-! ## Indicator, system off -/

/-- Writes to the two LEDs of one poll: only the LED step issues them. -/
theorem led_writes_poll_out (i : Inputs) (w : World) (g : Gpio)
    (hg : g = .LED_PWR ∨ g = .LED_ACIN) :
    writes_to g (poll_out i w) =
      (gpio_writes (led_out i.BUF_PLT_RST_N i.SUSC_N_PCH i.ACIN_N i.LED_PWR w.suspend_timer
        w.TF1 w.TR1 w.TMOD)).filterMap (fun gb => if gb.1 = g then some gb.2 else none) := by
  have h := no_led_writes i w g hg
  have hb : (if Gpio.PWR_BTN_N = g then some (switch_value i.PWR_SW_N i.PWR_SW_N_again
      w.ps_last) else none) = none := by
    rcases hg with rfl | rfl <;> simp
  rw [writes_to_of_gpio_writes, gpio_writes_poll_out]
  simp only [List.filterMap_append, List.filterMap_cons, h.1, h.2.1, h.2.2, hb,
    List.nil_append]

/-- C11, as stated, fails: with the reset and S4 lines low and the adapter
line high (unplugged, the value for which an edge disables the charger) the
poll writes LED_ACIN off, not on. -/
theorem C11_unplugged_is_dark :
    idle_inputs.BUF_PLT_RST_N = false ∧ idle_inputs.SUSC_N_PCH = false ∧
    idle_inputs.ACIN_N = true ∧
    battery_calls (emitted idle_inputs { boot0 with ac_last := false }) =
      [.battery_charger_disable, .battery_debug] ∧
    writes_to .LED_ACIN (emitted idle_inputs boot0) = [false] ∧
    writes_to .LED_PWR (emitted idle_inputs boot0) = [false] := by
  decide

/-- C11, amended. In a poll where BUF_PLT_RST_N and SUSC_N_PCH both read
false: if ACIN_N reads false (plugged in, the value for which an edge
enables the charger) the LED step issues LED_PWR off then LED_ACIN on; if
ACIN_N reads true (unplugged, the value for which an edge disables the
charger) it issues LED_PWR off then LED_ACIN off. These are the only writes
to the two LEDs in the poll. -/
theorem C11_indicator_off (i : Inputs) (w : World) (hr : i.BUF_PLT_RST_N = false)
    (h4 : i.SUSC_N_PCH = false) :
    (i.ACIN_N = false →
      (power_event i w).trace =
        (before_led i w).trace ++ [.gpio_set .LED_PWR false, .gpio_set .LED_ACIN true] ∧
      writes_to .LED_PWR (emitted i w) = [false] ∧
      writes_to .LED_ACIN (emitted i w) = [true] ∧
      (w.ac_last = true → battery_calls (emitted i w) =
        [.battery_charger_enable, .battery_debug])) ∧
    (i.ACIN_N = true →
      (power_event i w).trace =
        (before_led i w).trace ++ [.gpio_set .LED_PWR false, .gpio_set .LED_ACIN false] ∧
      writes_to .LED_PWR (emitted i w) = [false] ∧
      writes_to .LED_ACIN (emitted i w) = [false] ∧
      (w.ac_last = false → battery_calls (emitted i w) =
        [.battery_charger_disable, .battery_debug])) := by
  refine ⟨?_, ?_⟩
  · intro ha
    refine ⟨?_, ?_, ?_, ?_⟩
    · simp [power_event_eq, before_led_eq, poll_out, led_out, hr, h4, ha]
    · rw [emitted_eq, led_writes_poll_out i w _ (Or.inl rfl), gpio_writes_led_out, hr, h4, ha]
      rfl
    · rw [emitted_eq, led_writes_poll_out i w _ (Or.inr rfl), gpio_writes_led_out, hr, h4, ha]
      rfl
    · intro hl
      rw [emitted_eq, battery_calls_poll_out, ha, hl]
      rfl
  · intro ha
    refine ⟨?_, ?_, ?_, ?_⟩
    · simp [power_event_eq, before_led_eq, poll_out, led_out, hr, h4, ha]
    · rw [emitted_eq, led_writes_poll_out i w _ (Or.inl rfl), gpio_writes_led_out, hr, h4, ha]
      rfl
    · rw [emitted_eq, led_writes_poll_out i w _ (Or.inr rfl), gpio_writes_led_out, hr, h4, ha]
      rfl
    · intro hl
      rw [emitted_eq, battery_calls_poll_out, ha, hl]
      rfl

/-- C11 at a sample input: the adapter is plugged in at the first poll, the
system is off. -/
theorem C11_indicator_off_witness :
    plugged_poll.inputs.BUF_PLT_RST_N = false ∧ plugged_poll.inputs.SUSC_N_PCH = false ∧
    plugged_poll.inputs.ACIN_N = false ∧
    writes_to .LED_PWR (emitted plugged_poll.inputs boot0) = [false] ∧
    writes_to .LED_ACIN (emitted plugged_poll.inputs boot0) = [true] :=
  ⟨rfl, rfl, rfl, ((C11_indicator_off plugged_poll.inputs boot0 rfl rfl).1 rfl).2.1,
    ((C11_indicator_off plugged_poll.inputs boot0 rfl rfl).1 rfl).2.2.1⟩

/-! ## Power-good and suspend-acknowledge steps -/

theorem before_pwrgd_eq (i : Inputs) (w : World) :
    before_pwrgd i w = { w with
        state := switch_state i.PWR_SW_N i.PWR_SW_N_again w.ps_last (startup_state w.state),
        ac_send_sci := (w.ac_send_sci || (i.ACIN_N != w.ac_last)) && !i.pmc_sci,
        ac_last := i.ACIN_N,
        ps_last := switch_value i.PWR_SW_N i.PWR_SW_N_again w.ps_last,
        main_cycle := if i.ACIN_N != w.ac_last then 0 else w.main_cycle,
        trace := w.trace ++ (startup_out w.state ++
          ac_out i.ACIN_N i.pmc_sci w.ac_last w.ac_send_sci ++
          switch_out i.PWR_SW_N i.PWR_SW_N_again w.ps_last (startup_state w.state) ++
          [.gpio_set .PWR_BTN_N (switch_value i.PWR_SW_N i.PWR_SW_N_again w.ps_last)]) } := by
  simp [before_pwrgd, before_btn_eq, gpio_set, emit]

theorem before_ack_eq (i : Inputs) (w : World) :
    before_ack i w = { w with
        state := switch_state i.PWR_SW_N i.PWR_SW_N_again w.ps_last (startup_state w.state),
        ac_send_sci := (w.ac_send_sci || (i.ACIN_N != w.ac_last)) && !i.pmc_sci,
        ac_last := i.ACIN_N,
        ps_last := switch_value i.PWR_SW_N i.PWR_SW_N_again w.ps_last,
        pg_last := i.ALL_SYS_PWRGD,
        rst_last := i.BUF_PLT_RST_N,
        s4_last := i.SUSC_N_PCH,
        main_cycle := if i.ACIN_N != w.ac_last then 0 else w.main_cycle,
        trace := w.trace ++ (startup_out w.state ++
          ac_out i.ACIN_N i.pmc_sci w.ac_last w.ac_send_sci ++
          switch_out i.PWR_SW_N i.PWR_SW_N_again w.ps_last (startup_state w.state) ++
          [.gpio_set .PWR_BTN_N (switch_value i.PWR_SW_N i.PWR_SW_N_again w.ps_last)] ++
          pwrgd_out i.ALL_SYS_PWRGD w.pg_last ++ rst_out i.BUF_PLT_RST_N w.rst_last) } := by
  simp [before_ack, before_pwrgd_eq, pwrgd_block_eq, rst_block_eq, s4_block]

theorem before_led_steps (i : Inputs) (w : World) :
    before_led i w = ack_block i.SUSWARN_N i.SUSC_N_PCH (before_ack i w) := by
  simp [before_led, before_ack, before_pwrgd, DEEP_SX]

/-- C13. The ALL_SYS_PWRGD step of a poll runs right after the PWR_BTN_N write
and sees the `pg_last` of the previous poll. On a rising edge it issues
PM_PWROK on, a 10 ms delay, PCH_PWROK_EC on, in that order; on a falling edge
PCH_PWROK_EC off then PM_PWROK off with nothing in between; with the sample
equal to `pg_last` it issues nothing. `pg_last` ends as the sample. -/
theorem C13_power_good_edge (i : Inputs) (w : World) :
    (before_pwrgd i w).pg_last = w.pg_last ∧
    before_led i w = ack_block i.SUSWARN_N i.SUSC_N_PCH (s4_block i.SUSC_N_PCH
      (rst_block i.BUF_PLT_RST_N (pwrgd_block i.ALL_SYS_PWRGD (before_pwrgd i w)))) ∧
    (i.ALL_SYS_PWRGD = true → w.pg_last = false →
      issued (pwrgd_block i.ALL_SYS_PWRGD) (before_pwrgd i w) =
        [.gpio_set .PM_PWROK true, .delay_ms 10, .gpio_set .PCH_PWROK_EC true]) ∧
    (i.ALL_SYS_PWRGD = false → w.pg_last = true →
      issued (pwrgd_block i.ALL_SYS_PWRGD) (before_pwrgd i w) =
        [.gpio_set .PCH_PWROK_EC false, .gpio_set .PM_PWROK false]) ∧
    (i.ALL_SYS_PWRGD = w.pg_last →
      issued (pwrgd_block i.ALL_SYS_PWRGD) (before_pwrgd i w) = []) ∧
    (power_event i w).pg_last = i.ALL_SYS_PWRGD := by
  have hp : (before_pwrgd i w).pg_last = w.pg_last := by simp [before_pwrgd_eq]
  have hi : issued (pwrgd_block i.ALL_SYS_PWRGD) (before_pwrgd i w) =
      pwrgd_out i.ALL_SYS_PWRGD w.pg_last := by
    simp [issued, pwrgd_block_eq, hp]
  refine ⟨hp, ?_, ?_, ?_, ?_, ?_⟩
  · simp [before_led, before_pwrgd, DEEP_SX]
  · intro h1 h2; rw [hi, h1, h2]; rfl
  · intro h1 h2; rw [hi, h1, h2]; rfl
  · intro h; rw [hi, h]; cases w.pg_last <;> rfl
  · simp [power_event_eq]

/-- C13 at a sample input: ALL_SYS_PWRGD reads true at the first poll. -/
theorem C13_power_good_edge_witness :
    ({ idle_inputs with ALL_SYS_PWRGD := true } : Inputs).ALL_SYS_PWRGD = true ∧
    boot0.pg_last = false ∧
    issued (pwrgd_block ({ idle_inputs with ALL_SYS_PWRGD := true } : Inputs).ALL_SYS_PWRGD)
        (before_pwrgd { idle_inputs with ALL_SYS_PWRGD := true } boot0) =
      [.gpio_set .PM_PWROK true, .delay_ms 10, .gpio_set .PCH_PWROK_EC true] :=
  ⟨rfl, rfl,
    (C13_power_good_edge { idle_inputs with ALL_SYS_PWRGD := true } boot0).2.2.1 rfl rfl⟩

theorem mem_ec_en_off_poll_out (i : Inputs) (w : World) :
    Effect.gpio_set .EC_EN false ∈ poll_out i w ↔
      ack_fires i.SUSWARN_N i.SUSC_N_PCH w.ack_last
        (switch_state i.PWR_SW_N i.PWR_SW_N_again w.ps_last (startup_state w.state)) = true := by
  have h1 : ∀ s, Effect.gpio_set .EC_EN false ∉ startup_out s := by
    intro s; cases s <;> decide
  have h2 : ∀ r g l s, Effect.gpio_set .EC_EN false ∉ switch_out r g l s := by
    intro r g l s; cases s <;> cases r <;> cases g <;> cases l <;> decide
  have h3 : ∀ p l, Effect.gpio_set .EC_EN false ∉ pwrgd_out p l := by
    intro p l; cases p <;> cases l <;> decide
  have h4 : ∀ r l, Effect.gpio_set .EC_EN false ∉ rst_out r l := by
    intro r l; cases r <;> cases l <;> decide
  have h5 : ∀ a k l c, Effect.gpio_set .EC_EN false ∉ ac_out a k l c := by
    intro a k l c; cases a <;> cases k <;> cases l <;> cases c <;> decide
  have h6 : ∀ r s4 a lr st tf1 tr1 tmod,
      Effect.gpio_set .EC_EN false ∉ led_out r s4 a lr st tf1 tr1 tmod := by
    intro r s4 a lr st tf1 tr1 tmod
    by_cases hst : st ≤ 0 <;> cases r <;> cases s4 <;> cases a <;> cases tf1 <;> cases tr1 <;>
      simp [led_out, led_suspend_out, timer_reload, hst]
  have h7 : ∀ f, Effect.gpio_set .EC_EN false ∈ (if f = true then s5_off_out else []) ↔
      f = true := by
    intro f; cases f <;> simp [s5_off_out]
  simp only [poll_out, before_led_out, List.mem_append, h1, h2, h3, h4, h5, h6, ack_out, h7,
    List.mem_singleton, false_or, or_false]
  simp

theorem trace_of_power_off_s5 : trace_of power_off_s5 = s5_off_out := by
  decide

theorem ack_block_idle (a s4 : Bool) (v : World)
    (hf : ack_fires a s4 v.ack_last v.state = false) :
    ack_block a s4 v = { v with ack_last := a } := by
  rw [ack_block_eq]
  simp [ack_state, ack_out, hf]

theorem ack_block_fire (a s4 : Bool) (v : World)
    (hf : ack_fires a s4 v.ack_last v.state = true) :
    ack_block a s4 v = { power_off_s5 v with state := POWER_STATE_DS5, ack_last := a } ∧
    issued (ack_block a s4) v = s5_off_out := by
  constructor
  · rw [ack_block_eq, power_off_s5_eq]
    simp [ack_state, ack_out, hf]
  · rw [issued, ack_block_eq]
    simp [ack_out, hf]

/-- C14. The SUSPWRDNACK step of a poll sees the `ack_last` of the previous
poll and the `state` left by the switch step. On a rising edge of SUSWARN_N:
if SUSC_N_PCH reads true the step issues nothing and leaves `state`; otherwise
if `state` is S5 it runs `power_off_s5` exactly once and sets `state` to DS5,
and if `state` is not S5 it issues nothing and leaves `state`. Without a
rising edge the step issues nothing, and the poll contains no write of
`power_off_s5`. -/
theorem C14_suspend_ack_edge (i : Inputs) (w : World) :
    before_led i w = ack_block i.SUSWARN_N i.SUSC_N_PCH (before_ack i w) ∧
    (before_ack i w).ack_last = w.ack_last ∧
    (before_ack i w).state = (before_btn i w).2.state ∧
    (i.SUSWARN_N = true → w.ack_last = false → i.SUSC_N_PCH = true →
      ack_block i.SUSWARN_N i.SUSC_N_PCH (before_ack i w) =
        { before_ack i w with ack_last := true } ∧
      ¬ (trace_of power_off_s5 <:+: emitted i w)) ∧
    (i.SUSWARN_N = true → w.ack_last = false → i.SUSC_N_PCH = false →
      (before_ack i w).state = POWER_STATE_S5 →
      ack_block i.SUSWARN_N i.SUSC_N_PCH (before_ack i w) =
        { power_off_s5 (before_ack i w) with state := POWER_STATE_DS5, ack_last := true } ∧
      issued (ack_block i.SUSWARN_N i.SUSC_N_PCH) (before_ack i w) = trace_of power_off_s5 ∧
      (power_event i w).state = POWER_STATE_DS5) ∧
    (i.SUSWARN_N = true → w.ack_last = false → i.SUSC_N_PCH = false →
      (before_ack i w).state ≠ POWER_STATE_S5 →
      ack_block i.SUSWARN_N i.SUSC_N_PCH (before_ack i w) =
        { before_ack i w with ack_last := true } ∧
      ¬ (trace_of power_off_s5 <:+: emitted i w)) ∧
    (¬ (i.SUSWARN_N = true ∧ w.ack_last = false) →
      ack_block i.SUSWARN_N i.SUSC_N_PCH (before_ack i w) =
        { before_ack i w with ack_last := i.SUSWARN_N } ∧
      Effect.gpio_set .EC_EN false ∉ emitted i w ∧
      ¬ (trace_of power_off_s5 <:+: emitted i w)) := by
  have hl : (before_ack i w).ack_last = w.ack_last := by simp [before_ack_eq]
  have hs : (before_ack i w).state =
      switch_state i.PWR_SW_N i.PWR_SW_N_again w.ps_last (startup_state w.state) := by
    simp [before_ack_eq]
  have hno : ack_fires i.SUSWARN_N i.SUSC_N_PCH w.ack_last
      (switch_state i.PWR_SW_N i.PWR_SW_N_again w.ps_last (startup_state w.state)) = false →
      Effect.gpio_set .EC_EN false ∉ emitted i w ∧
      ¬ (trace_of power_off_s5 <:+: emitted i w) := by
    intro hf
    have hn : Effect.gpio_set .EC_EN false ∉ emitted i w := by
      rw [emitted_eq, mem_ec_en_off_poll_out, hf]; simp
    refine ⟨hn, fun hin => hn (hin.subset ?_)⟩
    rw [trace_of_power_off_s5]; simp [s5_off_out]
  have hid : ∀ a, ack_fires a i.SUSC_N_PCH w.ack_last
      (switch_state i.PWR_SW_N i.PWR_SW_N_again w.ps_last (startup_state w.state)) = false →
      ack_block a i.SUSC_N_PCH (before_ack i w) = { before_ack i w with ack_last := a } := by
    intro a hf
    exact ack_block_idle a _ _ (by rw [hl, hs]; exact hf)
  refine ⟨before_led_steps i w, hl, by simp [before_ack_eq, before_btn_eq], ?_, ?_, ?_, ?_⟩
  · intro h1 h2 h3
    have hf : ack_fires i.SUSWARN_N i.SUSC_N_PCH w.ack_last
        (switch_state i.PWR_SW_N i.PWR_SW_N_again w.ps_last (startup_state w.state)) = false := by
      simp [ack_fires, h3]
    have := hid i.SUSWARN_N hf
    rw [h1] at this
    exact ⟨by rw [h1]; exact this, (hno hf).2⟩
  · intro h1 h2 h3 h5
    have h5' := h5
    rw [hs] at h5'
    have hf : ack_fires i.SUSWARN_N i.SUSC_N_PCH w.ack_last
        (switch_state i.PWR_SW_N i.PWR_SW_N_again w.ps_last (startup_state w.state)) = true := by
      simp [ack_fires, h1, h2, h3, h5']
    have hb := ack_block_fire i.SUSWARN_N i.SUSC_N_PCH (before_ack i w)
      (by rw [hl, hs]; exact hf)
    rw [h1] at hb
    refine ⟨?_, ?_, ?_⟩
    · rw [h1]; exact hb.1
    · rw [h1, trace_of_power_off_s5]; exact hb.2
    · simp [power_event_eq, poll_state, ack_state, hf]
  · intro h1 h2 h3 h5
    rw [hs] at h5
    have hf : ack_fires i.SUSWARN_N i.SUSC_N_PCH w.ack_last
        (switch_state i.PWR_SW_N i.PWR_SW_N_again w.ps_last (startup_state w.state)) = false := by
      simp [ack_fires, h5]
    have := hid i.SUSWARN_N hf
    rw [h1] at this
    exact ⟨by rw [h1]; exact this, (hno hf).2⟩
  · intro hne
    have hf : ack_fires i.SUSWARN_N i.SUSC_N_PCH w.ack_last
        (switch_state i.PWR_SW_N i.PWR_SW_N_again w.ps_last (startup_state w.state)) = false := by
      cases h1 : i.SUSWARN_N <;> cases h2 : w.ack_last <;> simp_all [ack_fires]
    exact ⟨hid _ hf, hno hf⟩

/-- C14 at a sample input: from S5, SUSWARN_N rises while SUSC_N_PCH reads
false. -/
theorem C14_suspend_ack_edge_witness :
    ({ idle_inputs with SUSWARN_N := true } : Inputs).SUSWARN_N = true ∧
    ({ boot0 with state := POWER_STATE_S5 } : World).ack_last = false ∧
    ({ idle_inputs with SUSWARN_N := true } : Inputs).SUSC_N_PCH = false ∧
    (before_ack { idle_inputs with SUSWARN_N := true }
      { boot0 with state := POWER_STATE_S5 }).state = POWER_STATE_S5 ∧
    (power_event { idle_inputs with SUSWARN_N := true }
      { boot0 with state := POWER_STATE_S5 }).state = POWER_STATE_DS5 :=
  ⟨rfl, rfl, rfl, rfl,
    ((C14_suspend_ack_edge { idle_inputs with SUSWARN_N := true }
      { boot0 with state := POWER_STATE_S5 }).2.2.2.2.1 rfl rfl rfl rfl).2.2⟩

/-- C17. Every poll that takes the flashing branch returns with TR1 = 1 and
TF1 = 0. The timer is stopped and its flag cleared exactly when TF1 is found
set; TMOD, TH1 and TL1 are written, and the timer started, exactly when the
timer is not running after that, that is when TF1 was set or TR1 was clear.
So a running timer that has not expired is left alone, and a consumed tick
stops and re-arms the timer in the same poll. -/
theorem C17_timer_arming (i : Inputs) (w : World) (hr : i.BUF_PLT_RST_N = false)
    (h4 : i.SUSC_N_PCH = true) :
    (power_event i w).TR1 = true ∧ (power_event i w).TF1 = false ∧
    sfr_writes (emitted i w) =
      (if w.TF1 then [(.TR1, 0), (.TF1, 0)] else []) ++
      (if w.TF1 || !w.TR1 then
        [(.TMOD, (w.TMOD &&& 0x0F) ||| 0x10), (.TH1, 0xE2), (.TL1, 0x0C), (.TR1, 1)]
       else []) ∧
    (w.TR1 = true → w.TF1 = false →
      sfr_writes (emitted i w) = [] ∧ (power_event i w).TMOD = w.TMOD ∧
      (power_event i w).TH1 = w.TH1 ∧ (power_event i w).TL1 = w.TL1) ∧
    (w.TF1 = true →
      sfr_writes (emitted i w) =
        [(.TR1, 0), (.TF1, 0), (.TMOD, (w.TMOD &&& 0x0F) ||| 0x10), (.TH1, 0xE2),
         (.TL1, 0x0C), (.TR1, 1)]) := by
  have hb : blinking i = true := by simp [blinking, hr, h4]
  have hs : sfr_writes (emitted i w) =
      (if w.TF1 then [(.TR1, 0), (.TF1, 0)] else []) ++
      (if w.TF1 || !w.TR1 then
        [(.TMOD, (w.TMOD &&& 0x0F) ||| 0x10), (.TH1, 0xE2), (.TL1, 0x0C), (.TR1, 1)]
       else []) := by
    rw [emitted_eq, sfr_writes_poll_out, if_pos hb]
    rfl
  refine ⟨by simp [power_event_eq, hb], by simp [power_event_eq, hb], hs, ?_, ?_⟩
  · intro h1 h2
    refine ⟨by rw [hs, h1, h2]; rfl, ?_, ?_, ?_⟩ <;>
      simp [power_event_eq, hb, timer_reload, h1, h2]
  · intro h1
    rw [hs, h1]; rfl

/-- C17 at a sample input: the first poll in the flashing branch finds the
timer stopped and arms it. -/
theorem C17_timer_arming_witness :
    ({ idle_inputs with SUSC_N_PCH := true } : Inputs).BUF_PLT_RST_N = false ∧
    ({ idle_inputs with SUSC_N_PCH := true } : Inputs).SUSC_N_PCH = true ∧
    (power_event { idle_inputs with SUSC_N_PCH := true } boot0).TR1 = true ∧
    (power_event { idle_inputs with SUSC_N_PCH := true } boot0).TF1 = false :=
  ⟨rfl, rfl, (C17_timer_arming { idle_inputs with SUSC_N_PCH := true } boot0 rfl rfl).1,
    (C17_timer_arming { idle_inputs with SUSC_N_PCH := true } boot0 rfl rfl).2.1⟩

/-- C18, as stated, fails: the code programs TH1 = 0xE2 and TL1 = 0x0C, that is
0xE20C = 57868, whereas 65536 - (10000 * 69 + 89) / 90 evaluated in integer
arithmetic is 57869 = 0xE20D. -/
theorem C18_not_integer_formula :
    sfr_writes (emitted { idle_inputs with SUSC_N_PCH := true } boot0) =
      [(.TMOD, 0x10), (.TH1, 0xE2), (.TL1, 0x0C), (.TR1, 1)] ∧
    (power_event { idle_inputs with SUSC_N_PCH := true } boot0).TH1 * 256 +
      (power_event { idle_inputs with SUSC_N_PCH := true } boot0).TL1 = 0xE20C ∧
    65536 - (10000 * 69 + 89) / 90 = 0xE20D ∧
    (power_event { idle_inputs with SUSC_N_PCH := true } boot0).TH1 * 256 +
      (power_event { idle_inputs with SUSC_N_PCH := true } boot0).TL1 ≠
      65536 - (10000 * 69 + 89) / 90 := by
  decide

/-- C18, amended. Whenever a poll in the flashing branch programs timer 1
(TF1 found set or TR1 found clear), it leaves TH1 = 0xE2 and TL1 = 0x0C, the
value 0xE20C named in the comment of line 366. That value is
65536 - (10000 * 69 + 89) / 90 with the division taken exactly and the
result rounded down; it is 65535 - (10000 * 69 + 89) / 90 in integer
arithmetic; and it leaves 7668 ticks to overflow, which at 69 ticks per
90 us is not less than 10000 us. -/
theorem C18_reload_programmed (i : Inputs) (w : World) (hr : i.BUF_PLT_RST_N = false)
    (h4 : i.SUSC_N_PCH = true) (hp : w.TF1 = true ∨ w.TR1 = false) :
    (power_event i w).TH1 = 0xE2 ∧ (power_event i w).TL1 = 0x0C ∧
    (power_event i w).TH1 * 256 + (power_event i w).TL1 = 0xE20C ∧
    (((power_event i w).TH1 * 256 + (power_event i w).TL1 : Nat) : Int) =
      ⌊(65536 : ℚ) - (10000 * 69 + 89) / 90⌋ ∧
    (power_event i w).TH1 * 256 + (power_event i w).TL1 = 65535 - (10000 * 69 + 89) / 90 ∧
    65536 - ((power_event i w).TH1 * 256 + (power_event i w).TL1) = 7668 ∧
    10000 * 69 ≤ (65536 - ((power_event i w).TH1 * 256 + (power_event i w).TL1)) * 90 := by
  have hb : blinking i = true := by simp [blinking, hr, h4]
  have ht : timer_reload w.TF1 w.TR1 = true := by
    rcases hp with h | h <;> simp [timer_reload, h]
  have h1 : (power_event i w).TH1 = 0xE2 := by simp [power_event_eq, hb, ht]
  have h2 : (power_event i w).TL1 = 0x0C := by simp [power_event_eq, hb, ht]
  rw [h1, h2]
  refine ⟨rfl, rfl, by decide, ?_, by decide, by decide, by decide⟩
  symm
  rw [Int.floor_eq_iff]
  constructor <;> norm_num

/-- C18 at a sample input: the first poll in the flashing branch after
construction finds the timer stopped and programs it. -/
theorem C18_reload_programmed_witness :
    ({ idle_inputs with SUSC_N_PCH := true } : Inputs).BUF_PLT_RST_N = false ∧
    ({ idle_inputs with SUSC_N_PCH := true } : Inputs).SUSC_N_PCH = true ∧
    boot0.TR1 = false ∧
    (power_event { idle_inputs with SUSC_N_PCH := true } boot0).TH1 = 0xE2 ∧
    (power_event { idle_inputs with SUSC_N_PCH := true } boot0).TL1 = 0x0C :=
  ⟨rfl, rfl, rfl,
    (C18_reload_programmed { idle_inputs with SUSC_N_PCH := true } boot0 rfl rfl
      (Or.inr rfl)).1,
    (C18_reload_programmed { idle_inputs with SUSC_N_PCH := true } boot0 rfl rfl
      (Or.inr rfl)).2.1⟩

/-! ## Startup -/

theorem count_ds5_poll_out (i : Inputs) (w : World) :
    (poll_out i w).count (.delay_ms 9) = if w.state = POWER_STATE_DEFAULT then 1 else 0 := by
  have h1 : ∀ s, (startup_out s).count (.delay_ms 9) =
      if s = POWER_STATE_DEFAULT then 1 else 0 := by
    intro s; cases s <;> decide
  have h2 : ∀ r g l s, (switch_out r g l s).count (.delay_ms 9) = 0 := by
    intro r g l s; cases s <;> cases r <;> cases g <;> cases l <;> decide
  have h3 : ∀ p l, (pwrgd_out p l).count (.delay_ms 9) = 0 := by
    intro p l; cases p <;> cases l <;> decide
  have h4 : ∀ r l, (rst_out r l).count (.delay_ms 9) = 0 := by
    intro r l; cases r <;> cases l <;> decide
  have h5 : ∀ a s4 l s, (ack_out a s4 l s).count (.delay_ms 9) = 0 := by
    intro a s4 l s; cases s <;> cases a <;> cases s4 <;> cases l <;> decide
  have h6 : ∀ r s4 a lr st tf1 tr1 tmod,
      (led_out r s4 a lr st tf1 tr1 tmod).count (.delay_ms 9) = 0 := by
    intro r s4 a lr st tf1 tr1 tmod
    by_cases hst : st ≤ 0 <;> cases r <;> cases s4 <;> cases a <;> cases tf1 <;> cases tr1 <;>
      simp [led_out, led_suspend_out, timer_reload, hst]
  have h7 : ∀ a k l c, (ac_out a k l c).count (.delay_ms 9) = 0 := by
    intro a k l c; cases a <;> cases k <;> cases l <;> cases c <;> decide
  have h8 : ∀ v, [Effect.gpio_set .PWR_BTN_N v].count (.delay_ms 9) = 0 := by
    intro v; cases v <;> decide
  simp only [poll_out, before_led_out, List.count_append, h1, h2, h3, h4, h5, h6, h7, h8,
    Nat.add_zero]

theorem count_ds5_run_out (ps : List Poll) (w : World) (h : w.state ≠ POWER_STATE_DEFAULT) :
    (run_out ps w).count (.delay_ms 9) = 0 := by
  induction ps generalizing w with
  | nil => simp [run_out_nil]
  | cons p ps ih =>
    rw [run_out_cons, List.count_append, count_ds5_poll_out,
      ih (poll p w) (by rw [poll_eq_state]; exact poll_state_ne_default _ _)]
    simp [host_step, h]

/-- C15. From construction, over every non-empty sequence of polls and inputs:
the trace starts with the actions of `power_on_ds5` (the 9 ms delay, which no
other procedure issues), that delay occurs exactly once in the whole trace,
`state` is not Default afterwards, and in every later poll the startup step
leaves the world as it is. -/
theorem C15_startup_once (tmod th1 tl1 : Nat) (tr1 tf1 : Bool) (p : Poll) (ps : List Poll) :
    trace_of power_on_ds5 = [.delay_ms 9] ∧
    (∃ rest, (run (p :: ps) (boot tmod th1 tl1 tr1 tf1)).trace =
      trace_of power_on_ds5 ++ rest ∧ Effect.delay_ms 9 ∉ rest) ∧
    (run (p :: ps) (boot tmod th1 tl1 tr1 tf1)).trace.count (.delay_ms 9) = 1 ∧
    (run (p :: ps) (boot tmod th1 tl1 tr1 tf1)).state ≠ POWER_STATE_DEFAULT ∧
    (∀ q : Poll, startup_block (host_step q (run (p :: ps) (boot tmod th1 tl1 tr1 tf1))) =
      host_step q (run (p :: ps) (boot tmod th1 tl1 tr1 tf1))) := by
  have hd : trace_of power_on_ds5 = [.delay_ms 9] := by decide
  have hne : (run (p :: ps) (boot tmod th1 tl1 tr1 tf1)).state ≠ POWER_STATE_DEFAULT :=
    run_ne_default ps _ (by rw [poll_eq_state]; exact poll_state_ne_default _ _)
  have htr : (run (p :: ps) (boot tmod th1 tl1 tr1 tf1)).trace =
      poll_out p.inputs (host_step p (boot tmod th1 tl1 tr1 tf1)) ++
        run_out ps (poll p (boot tmod th1 tl1 tr1 tf1)) := by
    rw [run_trace, run_out_cons]; rfl
  have hpo : poll_out p.inputs (host_step p (boot tmod th1 tl1 tr1 tf1)) =
      Effect.delay_ms 9 :: (poll_out p.inputs (host_step p (boot tmod th1 tl1 tr1 tf1))).tail := by
    simp [poll_out, before_led_out, host_step, boot, startup_out]
  have hc1 : (poll_out p.inputs (host_step p (boot tmod th1 tl1 tr1 tf1))).count
      (.delay_ms 9) = 1 := by
    rw [count_ds5_poll_out]; simp [host_step, boot]
  have hc2 := count_ds5_run_out ps (poll p (boot tmod th1 tl1 tr1 tf1))
    (by rw [poll_eq_state]; exact poll_state_ne_default _ _)
  have hct : ((poll_out p.inputs (host_step p (boot tmod th1 tl1 tr1 tf1))).tail).count
      (.delay_ms 9) = 0 := by
    rw [hpo, List.count_cons_self] at hc1
    omega
  refine ⟨hd, ⟨(poll_out p.inputs (host_step p (boot tmod th1 tl1 tr1 tf1))).tail ++
      run_out ps (poll p (boot tmod th1 tl1 tr1 tf1)), ?_, ?_⟩, ?_, hne, ?_⟩
  · rw [htr, hd]
    conv_lhs => rw [hpo]
    simp
  · intro hmem
    rcases List.mem_append.1 hmem with h | h
    · exact (List.count_eq_zero.1 hct) h
    · exact (List.count_eq_zero.1 hc2) h
  · rw [htr, List.count_append, hc1, hc2]
  · intro q
    rw [startup_block_eq]
    have : (host_step q (run (p :: ps) (boot tmod th1 tl1 tr1 tf1))).state ≠
        POWER_STATE_DEFAULT := hne
    simp [startup_state, startup_out, this]

/-! ## Sample scenario -/

theorem delays_append (a b : List Effect) : delays (a ++ b) = delays a ++ delays b := by
  simp [delays, List.filter_append]

theorem delays_led_out (r s4 a lr : Bool) (st : Int) (tf1 tr1 : Bool) (tmod : Nat) :
    delays (led_out r s4 a lr st tf1 tr1 tmod) = [] := by
  by_cases hst : st ≤ 0 <;> cases r <;> cases s4 <;> cases a <;> cases tf1 <;> cases tr1 <;>
    simp [led_out, led_suspend_out, timer_reload, delays, hst]

theorem delays_ac_out (a k l c : Bool) : delays (ac_out a k l c) = [] := by
  cases a <;> cases k <;> cases l <;> cases c <;> decide

theorem poll_fields (p : Poll) (w : World) :
    (poll p w).state = poll_state p.inputs w ∧
    (poll p w).ps_last = switch_value p.inputs.PWR_SW_N p.inputs.PWR_SW_N_again w.ps_last ∧
    (poll p w).ack_last = p.inputs.SUSWARN_N ∧
    (poll p w).pg_last = p.inputs.ALL_SYS_PWRGD := by
  simp [poll, power_event_eq, host_step, poll_state]

theorem on_in_poll_out (i : Inputs) (w : World)
    (hc : press_confirmed i.PWR_SW_N i.PWR_SW_N_again w.ps_last = true)
    (hs : startup_state w.state = POWER_STATE_DS5) :
    s5_on_out <:+: poll_out i w := by
  have hd : (!i.PWR_SW_N && w.ps_last) = true := by
    cases h1 : i.PWR_SW_N <;> cases h2 : w.ps_last <;> simp_all [press_confirmed]
  refine ⟨startup_out w.state ++ ac_out i.ACIN_N i.pmc_sci w.ac_last w.ac_send_sci ++
      [.delay_ms 10],
    [.gpio_set .PWR_BTN_N (switch_value i.PWR_SW_N i.PWR_SW_N_again w.ps_last)] ++
      pwrgd_out i.ALL_SYS_PWRGD w.pg_last ++ rst_out i.BUF_PLT_RST_N w.rst_last ++
      ack_out i.SUSWARN_N i.SUSC_N_PCH w.ack_last
        (switch_state i.PWR_SW_N i.PWR_SW_N_again w.ps_last (startup_state w.state)) ++
      led_out i.BUF_PLT_RST_N i.SUSC_N_PCH i.ACIN_N i.LED_PWR w.suspend_timer w.TF1 w.TR1
        w.TMOD, ?_⟩
  simp only [poll_out, before_led_out, switch_out, hc, hs, hd, Bool.true_and, decide_True,
    if_true, List.append_assoc]

theorem off_in_poll_out (i : Inputs) (w : World)
    (hf : ack_fires i.SUSWARN_N i.SUSC_N_PCH w.ack_last
      (switch_state i.PWR_SW_N i.PWR_SW_N_again w.ps_last (startup_state w.state)) = true) :
    s5_off_out <:+: poll_out i w := by
  refine ⟨startup_out w.state ++ ac_out i.ACIN_N i.pmc_sci w.ac_last w.ac_send_sci ++
      switch_out i.PWR_SW_N i.PWR_SW_N_again w.ps_last (startup_state w.state) ++
      [.gpio_set .PWR_BTN_N (switch_value i.PWR_SW_N i.PWR_SW_N_again w.ps_last)] ++
      pwrgd_out i.ALL_SYS_PWRGD w.pg_last ++ rst_out i.BUF_PLT_RST_N w.rst_last,
    led_out i.BUF_PLT_RST_N i.SUSC_N_PCH i.ACIN_N i.LED_PWR w.suspend_timer w.TF1 w.TR1
      w.TMOD, ?_⟩
  simp only [poll_out, before_led_out, ack_out, hf, if_true, List.append_assoc]

/-- C16, as stated, fails: in a first poll with every line idle the sequencer
`power_on_ds5` writes no signal, yet the poll writes PWR_BTN_N, LED_PWR and
LED_ACIN. -/
theorem C16_first_poll_writes :
    idle_poll.inputs.PWR_SW_N = true ∧
    (poll idle_poll boot0).state = POWER_STATE_DS5 ∧
    gpio_writes (trace_of power_on_ds5) = [] ∧
    gpio_writes (emitted idle_poll.inputs (host_step idle_poll boot0)) =
      [(.PWR_BTN_N, true), (.LED_PWR, false), (.LED_ACIN, false)] := by
  decide

/-- C16, amended. From construction: a first poll with the switch released
leaves `state` DS5, its only sequencer delay is the 9 ms of `power_on_ds5`
(the one other delay possible is the 10 ms of a power-good edge), and its
signal writes go to PWR_BTN_N and the LEDs only (and to the two power-OK
outputs if ALL_SYS_PWRGD reads true); a following poll with the switch low
at both samples (and SUSWARN_N low) runs `power_on_s5` in its fixed order
and leaves `state` S5; a following poll in which SUSWARN_N rises while
SUSC_N_PCH reads false runs `power_off_s5` and leaves `state` DS5. -/
theorem C16_sample_scenario (tmod th1 tl1 : Nat) (tr1 tf1 : Bool) (p1 p2 p3 : Poll)
    (h1 : p1.inputs.PWR_SW_N = true)
    (h2 : p2.inputs.PWR_SW_N = false) (h2' : p2.inputs.PWR_SW_N_again = false)
    (h2a : p2.inputs.SUSWARN_N = false)
    (h3 : p3.inputs.SUSWARN_N = true) (h3' : p3.inputs.SUSC_N_PCH = false) :
    ((poll p1 (boot tmod th1 tl1 tr1 tf1)).state = POWER_STATE_DS5 ∧
      delays (emitted p1.inputs (host_step p1 (boot tmod th1 tl1 tr1 tf1))) =
        trace_of power_on_ds5 ++ (if p1.inputs.ALL_SYS_PWRGD then [.delay_ms 10] else []) ∧
      (∀ gb ∈ gpio_writes (emitted p1.inputs (host_step p1 (boot tmod th1 tl1 tr1 tf1))),
        gb.1 = .PWR_BTN_N ∨ gb.1 = .LED_PWR ∨ gb.1 = .LED_ACIN ∨
        (p1.inputs.ALL_SYS_PWRGD = true ∧ (gb.1 = .PM_PWROK ∨ gb.1 = .PCH_PWROK_EC)))) ∧
    ((poll p2 (poll p1 (boot tmod th1 tl1 tr1 tf1))).state = POWER_STATE_S5 ∧
      trace_of power_on_s5 <:+:
        emitted p2.inputs (host_step p2 (poll p1 (boot tmod th1 tl1 tr1 tf1)))) ∧
    ((poll p3 (poll p2 (poll p1 (boot tmod th1 tl1 tr1 tf1)))).state = POWER_STATE_DS5 ∧
      trace_of power_off_s5 <:+:
        emitted p3.inputs (host_step p3 (poll p2 (poll p1 (boot tmod th1 tl1 tr1 tf1))))) := by
  have f1 := poll_fields p1 (boot tmod th1 tl1 tr1 tf1)
  have s1 : (poll p1 (boot tmod th1 tl1 tr1 tf1)).state = POWER_STATE_DS5 := by
    rw [f1.1]
    cases p1.inputs.SUSWARN_N <;> cases p1.inputs.SUSC_N_PCH <;>
      simp [poll_state, boot, startup_state, switch_state, press_confirmed, h1, ack_state,
        ack_fires]
  have l1 : (poll p1 (boot tmod th1 tl1 tr1 tf1)).ps_last = true := by
    rw [f1.2.1]; simp [switch_value, h1]
  have f2 := poll_fields p2 (poll p1 (boot tmod th1 tl1 tr1 tf1))
  have s2 : (poll p2 (poll p1 (boot tmod th1 tl1 tr1 tf1))).state = POWER_STATE_S5 := by
    rw [f2.1]
    simp [poll_state, s1, l1, startup_state, switch_state, press_confirmed, h2, h2', h2a,
      ack_state, ack_fires]
  have a2 : (poll p2 (poll p1 (boot tmod th1 tl1 tr1 tf1))).ack_last = false := by
    rw [f2.2.2.1, h2a]
  have f3 := poll_fields p3 (poll p2 (poll p1 (boot tmod th1 tl1 tr1 tf1)))
  have sw3 : switch_state p3.inputs.PWR_SW_N p3.inputs.PWR_SW_N_again
      (poll p2 (poll p1 (boot tmod th1 tl1 tr1 tf1))).ps_last
      (startup_state (poll p2 (poll p1 (boot tmod th1 tl1 tr1 tf1))).state) = POWER_STATE_S5 := by
    simp [s2, startup_state, switch_state]
  refine ⟨⟨s1, ?_, ?_⟩, ⟨s2, ?_⟩, ⟨?_, ?_⟩⟩
  · rw [emitted_eq]
    have hd : trace_of power_on_ds5 = [.delay_ms 9] := by decide
    rw [hd]
    simp only [poll_out, before_led_out, delays_append, delays_led_out, delays_ac_out]
    cases p1.inputs.ALL_SYS_PWRGD <;> cases p1.inputs.BUF_PLT_RST_N <;>
      cases p1.inputs.SUSWARN_N <;> cases p1.inputs.SUSC_N_PCH <;>
      cases p1.inputs.PWR_SW_N_again <;>
      simp [host_step, boot, h1, startup_out, switch_out, press_confirmed, pwrgd_out, rst_out,
        ack_out, ack_fires, delays, startup_state, switch_state, switch_value]
  · intro gb hgb
    rw [emitted_eq, gpio_writes_poll_out, gpio_writes_switch_out, gpio_writes_pwrgd_out,
      gpio_writes_ack_out, gpio_writes_led_out] at hgb
    have hnf : ack_fires p1.inputs.SUSWARN_N p1.inputs.SUSC_N_PCH
        (host_step p1 (boot tmod th1 tl1 tr1 tf1)).ack_last
        (switch_state p1.inputs.PWR_SW_N p1.inputs.PWR_SW_N_again
          (host_step p1 (boot tmod th1 tl1 tr1 tf1)).ps_last
          (startup_state (host_step p1 (boot tmod th1 tl1 tr1 tf1)).state)) = false := by
      cases p1.inputs.SUSWARN_N <;> cases p1.inputs.SUSC_N_PCH <;>
        simp [ack_fires, host_step, boot, startup_state, switch_state, press_confirmed, h1]
    have hnp : press_confirmed p1.inputs.PWR_SW_N p1.inputs.PWR_SW_N_again
        (host_step p1 (boot tmod th1 tl1 tr1 tf1)).ps_last = false := by
      simp [press_confirmed, h1]
    rw [hnf, hnp] at hgb
    simp only [Bool.false_and, if_false, List.nil_append, List.mem_cons, List.mem_append,
      Bool.false_eq_true] at hgb
    rcases hgb with rfl | hgb | hgb
    · exact Or.inl rfl
    · cases hpg : p1.inputs.ALL_SYS_PWRGD <;>
        simp [hpg, host_step, boot] at hgb
      rcases hgb with rfl | rfl <;> simp
    · split_ifs at hgb <;> simp at hgb
      all_goals (rcases hgb with rfl | rfl <;> simp)
  · rw [emitted_eq, trace_of_power_on_s5]
    apply on_in_poll_out
    · simp [press_confirmed, host_step, h2, h2', l1]
    · simp [host_step, s1, startup_state]
  · rw [f3.1]
    simp [poll_state, sw3, ack_state, ack_fires, h3, h3', a2]
  · rw [emitted_eq, trace_of_power_off_s5]
    apply off_in_poll_out
    have sw3' : switch_state p3.inputs.PWR_SW_N p3.inputs.PWR_SW_N_again
        (host_step p3 (poll p2 (poll p1 (boot tmod th1 tl1 tr1 tf1)))).ps_last
        (startup_state (host_step p3 (poll p2 (poll p1 (boot tmod th1 tl1 tr1 tf1)))).state) =
        POWER_STATE_S5 := sw3
    rw [sw3']
    simp [ack_fires, h3, h3', host_step, a2]

/-- C16 at a sample input: an idle poll, a confirmed press, then SUSWARN_N
rising with SUSC_N_PCH low. -/
theorem C16_sample_scenario_witness :
    idle_poll.inputs.PWR_SW_N = true ∧
    (poll { idle_poll with inputs := { idle_inputs with SUSWARN_N := true } }
      (poll { idle_poll with inputs :=
          { idle_inputs with PWR_SW_N := false, PWR_SW_N_again := false } }
        (poll idle_poll (boot 0 0 0 false false)))).state = POWER_STATE_DS5 :=
  ⟨rfl, (C16_sample_scenario 0 0 0 false false idle_poll
    { idle_poll with inputs := { idle_inputs with PWR_SW_N := false, PWR_SW_N_again := false } }
    { idle_poll with inputs := { idle_inputs with SUSWARN_N := true } }
    rfl rfl rfl rfl rfl rfl).2.2.1⟩

/-! ## Blink cadence -/

theorem int8_small (x : Int) (h1 : -128 ≤ x) (h2 : x ≤ 127) : int8 x = x := by
  unfold int8; omega

theorem suspend_next_small (st : Int) (tf1 : Bool) (h0 : 0 ≤ st) (h1 : st ≤ 100) :
    suspend_next st tf1 = (if st ≤ 0 then 100 else st) - (if tf1 then 1 else 0) := by
  unfold suspend_next
  cases tf1
  · simp
  · simp only [if_true]
    split_ifs
    · exact int8_small _ (by omega) (by omega)
    · exact int8_small _ (by omega) (by omega)

theorem writes_led_pwr_blinking (i : Inputs) (w : World) (hb : blinking i = true) :
    writes_to .LED_PWR (emitted i w) = if w.suspend_timer ≤ 0 then [!i.LED_PWR] else [] := by
  have hr : i.BUF_PLT_RST_N = false := by
    cases h : i.BUF_PLT_RST_N <;> simp_all [blinking]
  have h4 : i.SUSC_N_PCH = true := by
    cases h : i.SUSC_N_PCH <;> simp_all [blinking]
  rw [emitted_eq, led_writes_poll_out i w _ (Or.inl rfl), gpio_writes_led_out, hr, h4]
  by_cases hst : w.suspend_timer ≤ 0 <;> simp [hst, List.filterMap_cons]

theorem poll_suspend_timer (p : Poll) (w : World) :
    (poll p w).suspend_timer =
      if blinking p.inputs then suspend_next w.suspend_timer (w.TF1 || p.timer1_overflow)
      else w.suspend_timer := by
  simp [poll, power_event_eq, host_step]

/-- The countdown equals 100 times the inversions minus the ticks consumed,
and stays between 0 and 100. -/
theorem blink_invariant (ps : List Poll) (w : World) (k n : Nat)
    (h : w.suspend_timer = 100 * (k : Int) - n) (h0 : 0 ≤ w.suspend_timer)
    (h1 : w.suspend_timer ≤ 100) :
    (run ps w).suspend_timer =
      100 * ((k + inversions ps w : Nat) : Int) - ((n + ticks_consumed ps w : Nat) : Int) ∧
    0 ≤ (run ps w).suspend_timer ∧ (run ps w).suspend_timer ≤ 100 := by
  induction ps generalizing w k n with
  | nil => simp [run, inversions, ticks_consumed, h, h0, h1]; omega
  | cons p ps ih =>
    have hst := poll_suspend_timer p w
    have htf : (host_step p w).TF1 = (w.TF1 || p.timer1_overflow) := rfl
    have hwr : (host_step p w).suspend_timer = w.suspend_timer := rfl
    cases hb : blinking p.inputs
    · rw [hb] at hst
      simp only [Bool.false_eq_true, if_false] at hst
      have := ih (poll p w) k n (by rw [hst]; exact h) (by rw [hst]; exact h0)
        (by rw [hst]; exact h1)
      simpa [run, inversions, ticks_consumed, hb] using this
    · rw [hb] at hst
      simp only [if_true] at hst
      rw [suspend_next_small _ _ h0 h1] at hst
      have hw := writes_led_pwr_blinking p.inputs (host_step p w) hb
      rw [hwr] at hw
      have hinv : inversions (p :: ps) w =
          (if w.suspend_timer ≤ 0 then 1 else 0) + inversions ps (poll p w) := by
        simp only [inversions, hb, if_true, hw]
        split_ifs <;> rfl
      have htk : ticks_consumed (p :: ps) w =
          (if (w.TF1 || p.timer1_overflow) = true then 1 else 0) +
            ticks_consumed ps (poll p w) := by
        simp only [ticks_consumed, hb, htf, Bool.true_and]
      have := ih (poll p w) (k + if w.suspend_timer ≤ 0 then 1 else 0)
        (n + if (w.TF1 || p.timer1_overflow) = true then 1 else 0)
        (by rw [hst]; split_ifs <;> push_cast <;> omega)
        (by rw [hst]; split_ifs <;> omega)
        (by rw [hst]; split_ifs <;> omega)
      rw [hinv, htk]
      simp only [run]
      rw [← Nat.add_assoc, ← Nat.add_assoc]
      exact this

/-- C12, as stated, fails: the countdown starts at 0, so the first poll in
the flashing branch inverts LED_PWR although no tick has been consumed. -/
theorem C12_first_blink_at_once :
    boot0.suspend_timer = 0 ∧
    ticks_consumed [{ idle_poll with inputs := { idle_inputs with SUSC_N_PCH := true } }] boot0
      = 0 ∧
    inversions [{ idle_poll with inputs := { idle_inputs with SUSC_N_PCH := true } }] boot0
      = 1 ∧
    writes_to .LED_PWR (emitted { idle_inputs with SUSC_N_PCH := true }
      (host_step { idle_poll with inputs := { idle_inputs with SUSC_N_PCH := true } } boot0)) =
      [!idle_inputs.LED_PWR] := by
  decide

/-- C12, amended. The countdown starts at 0. After any sequence of polls from
construction it lies between 0 and 100 and equals 100 times the number of
inversions of LED_PWR so far minus the number of ticks consumed so far. A
further poll taking the flashing branch inverts LED_PWR exactly when the
countdown is 0, that is when the ticks consumed equal 100 times the
inversions made (at once for the first such poll, then once per 100 ticks),
resets the countdown to 100 in that case, and then takes one off it exactly
when TF1 is found set. A poll in which the reset line reads true writes
LED_PWR on whatever its read-back and leaves the countdown. -/
theorem C12_blink_cadence (tmod th1 tl1 : Nat) (tr1 tf1 : Bool) (ps : List Poll) :
    (boot tmod th1 tl1 tr1 tf1).suspend_timer = 0 ∧
    (run ps (boot tmod th1 tl1 tr1 tf1)).suspend_timer =
      100 * (inversions ps (boot tmod th1 tl1 tr1 tf1) : Int) -
        ticks_consumed ps (boot tmod th1 tl1 tr1 tf1) ∧
    0 ≤ (run ps (boot tmod th1 tl1 tr1 tf1)).suspend_timer ∧
    (run ps (boot tmod th1 tl1 tr1 tf1)).suspend_timer ≤ 100 ∧
    (∀ q : Poll, blinking q.inputs = true →
      writes_to .LED_PWR (emitted q.inputs (host_step q (run ps (boot tmod th1 tl1 tr1 tf1)))) =
        (if ticks_consumed ps (boot tmod th1 tl1 tr1 tf1) =
            100 * inversions ps (boot tmod th1 tl1 tr1 tf1)
          then [!q.inputs.LED_PWR] else []) ∧
      (poll q (run ps (boot tmod th1 tl1 tr1 tf1))).suspend_timer =
        (if ticks_consumed ps (boot tmod th1 tl1 tr1 tf1) =
            100 * inversions ps (boot tmod th1 tl1 tr1 tf1)
          then 100 else (run ps (boot tmod th1 tl1 tr1 tf1)).suspend_timer) -
        (if ((run ps (boot tmod th1 tl1 tr1 tf1)).TF1 || q.timer1_overflow) = true
          then 1 else 0)) ∧
    (∀ q : Poll, q.inputs.BUF_PLT_RST_N = true →
      writes_to .LED_PWR (emitted q.inputs (host_step q (run ps (boot tmod th1 tl1 tr1 tf1)))) =
        [true] ∧
      (poll q (run ps (boot tmod th1 tl1 tr1 tf1))).suspend_timer =
        (run ps (boot tmod th1 tl1 tr1 tf1)).suspend_timer) := by
  have hinv := blink_invariant ps (boot tmod th1 tl1 tr1 tf1) 0 0 (by simp [boot])
    (by simp [boot]) (by simp [boot])
  simp only [Nat.zero_add] at hinv
  obtain ⟨he, h0, h1⟩ := hinv
  have hz : (run ps (boot tmod th1 tl1 tr1 tf1)).suspend_timer ≤ 0 ↔
      ticks_consumed ps (boot tmod th1 tl1 tr1 tf1) =
        100 * inversions ps (boot tmod th1 tl1 tr1 tf1) := by
    constructor <;> intro h <;> omega
  refine ⟨rfl, he, h0, h1, ?_, ?_⟩
  · intro q hb
    refine ⟨?_, ?_⟩
    · rw [writes_led_pwr_blinking _ _ hb]
      have : (host_step q (run ps (boot tmod th1 tl1 tr1 tf1))).suspend_timer =
          (run ps (boot tmod th1 tl1 tr1 tf1)).suspend_timer := rfl
      rw [this]
      by_cases hc : (run ps (boot tmod th1 tl1 tr1 tf1)).suspend_timer ≤ 0
      · rw [if_pos hc, if_pos (hz.1 hc)]
      · rw [if_neg hc, if_neg (fun h => hc (hz.2 h))]
    · rw [poll_suspend_timer, hb, if_pos rfl, suspend_next_small _ _ h0 h1]
      by_cases hc : (run ps (boot tmod th1 tl1 tr1 tf1)).suspend_timer ≤ 0
      · rw [if_pos hc, if_pos (hz.1 hc)]
      · rw [if_neg hc, if_neg (fun h => hc (hz.2 h))]
  · intro q hr
    refine ⟨?_, ?_⟩
    · rw [emitted_eq, led_writes_poll_out _ _ _ (Or.inl rfl), gpio_writes_led_out, hr]
      simp [List.filterMap_cons]
    · rw [poll_suspend_timer]
      simp [blinking, hr]

/-- C12 at a sample input: the first poll after construction takes the
flashing branch. -/
theorem C12_blink_cadence_witness :
    blinking ({ idle_poll with inputs := { idle_inputs with SUSC_N_PCH := true } } : Poll).inputs
      = true ∧
    (poll { idle_poll with inputs := { idle_inputs with SUSC_N_PCH := true } }
      (run [] (boot 0 0 0 false false))).suspend_timer = 100 :=
  ⟨rfl, ((C12_blink_cadence 0 0 0 false false []).2.2.2.2.1
    { idle_poll with inputs := { idle_inputs with SUSC_N_PCH := true } } rfl).2⟩

/-! ## Power-OK ordering -/

theorem last_driven_append (g : Gpio) (b : Bool) (t1 t2 : List Effect) :
    last_driven g b (t1 ++ t2) = last_driven g (last_driven g b t1) t2 := by
  simp [last_driven, List.foldl_append]

theorem last_driven_cons (g : Gpio) (b : Bool) (e : Effect) (t : List Effect) :
    last_driven g b (e :: t) = last_driven g (last_driven g b [e]) t := by
  simp [last_driven]

theorem pwrok_ordered_head (pm pch : Bool) (l : List Effect) :
    pwrok_ordered pm pch l = ((!pch || pm) && pwrok_ordered pm pch l) := by
  cases l <;> simp [pwrok_ordered]

theorem pwrok_ordered_append (pm pch : Bool) (a c : List Effect) :
    pwrok_ordered pm pch (a ++ c) =
      (pwrok_ordered pm pch a &&
        pwrok_ordered (last_driven .PM_PWROK pm a) (last_driven .PCH_PWROK_EC pch a) c) := by
  induction a generalizing pm pch with
  | nil =>
    rw [List.nil_append, pwrok_ordered_head pm pch c]
    simp [pwrok_ordered, last_driven]
  | cons e a ih =>
    show pwrok_ordered pm pch (e :: (a ++ c)) = _
    simp only [pwrok_ordered]
    rw [ih, last_driven_cons .PM_PWROK pm e a, last_driven_cons .PCH_PWROK_EC pch e a,
      Bool.and_assoc]

theorem pwrok_ordered_sound (pm pch : Bool) (l t1 t2 : List Effect)
    (h : pwrok_ordered pm pch l = true) (hl : l = t1 ++ t2)
    (hp : last_driven .PCH_PWROK_EC pch t1 = true) : last_driven .PM_PWROK pm t1 = true := by
  subst hl
  rw [pwrok_ordered_append, Bool.and_eq_true] at h
  have h2 := h.2
  rw [pwrok_ordered_head, Bool.and_eq_true, hp] at h2
  simpa using h2.1

theorem pwrok_neutral_append (a c : List Effect) (ha : pwrok_neutral a) (hc : pwrok_neutral c) :
    pwrok_neutral (a ++ c) := by
  intro b
  rw [pwrok_ordered_append, last_driven_append, last_driven_append, (ha b).1, (ha b).2,
    (hc _).1, (hc _).2]
  exact ⟨rfl, rfl⟩

theorem pwrok_neutral_poll_out (i : Inputs) (w : World) : pwrok_neutral (poll_out i w) := by
  have h1 : ∀ s, pwrok_neutral (startup_out s) := by
    intro s b; cases s <;> cases b <;> decide
  have h2 : ∀ r g l s, pwrok_neutral (switch_out r g l s) := by
    intro r g l s b; cases s <;> cases r <;> cases g <;> cases l <;> cases b <;> decide
  have h3 : ∀ p l, pwrok_neutral (pwrgd_out p l) := by
    intro p l b; cases p <;> cases l <;> cases b <;> decide
  have h4 : ∀ r l, pwrok_neutral (rst_out r l) := by
    intro r l b; cases r <;> cases l <;> cases b <;> decide
  have h5 : ∀ a s4 l s, pwrok_neutral (ack_out a s4 l s) := by
    intro a s4 l s b; cases s <;> cases a <;> cases s4 <;> cases l <;> cases b <;> decide
  have h6 : ∀ r s4 a lr st tf1 tr1 tmod, pwrok_neutral (led_out r s4 a lr st tf1 tr1 tmod) := by
    intro r s4 a lr st tf1 tr1 tmod b
    by_cases hst : st ≤ 0 <;> cases r <;> cases s4 <;> cases a <;> cases tf1 <;> cases tr1 <;>
      cases b <;>
      simp [led_out, led_suspend_out, timer_reload, hst, pwrok_ordered, last_driven]
  have h7 : ∀ a k l c, pwrok_neutral (ac_out a k l c) := by
    intro a k l c b; cases a <;> cases k <;> cases l <;> cases c <;> cases b <;> decide
  have h8 : ∀ v, pwrok_neutral [Effect.gpio_set .PWR_BTN_N v] := by
    intro v b; cases v <;> cases b <;> decide
  unfold poll_out before_led_out
  refine pwrok_neutral_append _ _ ?_ (h6 _ _ _ _ _ _ _ _)
  refine pwrok_neutral_append _ _ ?_ (h5 _ _ _ _)
  refine pwrok_neutral_append _ _ ?_ (h4 _ _)
  refine pwrok_neutral_append _ _ ?_ (h3 _ _)
  refine pwrok_neutral_append _ _ ?_ (h8 _)
  refine pwrok_neutral_append _ _ ?_ (h2 _ _ _ _)
  exact pwrok_neutral_append _ _ (h1 _) (h7 _ _ _ _)

theorem pwrok_run (ps : List Poll) (w : World)
    (h : pwrok_ordered false false w.trace = true)
    (he : last_driven .PM_PWROK false w.trace = last_driven .PCH_PWROK_EC false w.trace) :
    pwrok_ordered false false (run ps w).trace = true := by
  induction ps generalizing w with
  | nil => exact h
  | cons p ps ih =>
    have hn := pwrok_neutral_poll_out p.inputs (host_step p w)
    apply ih (poll p w)
    · rw [poll_trace, pwrok_ordered_append, h, he]
      exact (hn _).1
    · rw [poll_trace, last_driven_append, last_driven_append, he]
      exact (hn _).2

/-- C19. Taking PM_PWROK and PCH_PWROK_EC as low before the first poll, at
every point of the trace of any sequence of polls from construction, if the
last value driven on PCH_PWROK_EC is high then the last value driven on
PM_PWROK is high. -/
theorem C19_power_ok_order (tmod th1 tl1 : Nat) (tr1 tf1 : Bool) (ps : List Poll)
    (t1 t2 : List Effect) (ht : (run ps (boot tmod th1 tl1 tr1 tf1)).trace = t1 ++ t2)
    (hp : last_driven .PCH_PWROK_EC false t1 = true) :
    last_driven .PM_PWROK false t1 = true :=
  pwrok_ordered_sound false false _ t1 t2
    (pwrok_run ps (boot tmod th1 tl1 tr1 tf1) rfl rfl) ht hp

/-- C19 at a sample input: ALL_SYS_PWRGD reads true at the first poll; the
point taken is the end of the trace. -/
theorem C19_power_ok_order_witness :
    last_driven .PCH_PWROK_EC false
      (run [{ idle_poll with inputs := { idle_inputs with ALL_SYS_PWRGD := true } }]
        (boot 0 0 0 false false)).trace = true ∧
    last_driven .PM_PWROK false
      (run [{ idle_poll with inputs := { idle_inputs with ALL_SYS_PWRGD := true } }]
        (boot 0 0 0 false false)).trace = true :=
  ⟨by decide, C19_power_ok_order 0 0 0 false false
    [{ idle_poll with inputs := { idle_inputs with ALL_SYS_PWRGD := true } }] _ []
    (List.append_nil _).symm (by decide)⟩

/-! ## Rails and `state` -/

theorem toggles_append (g : Gpio) (b : Bool) (a c : List Effect) :
    toggles g b (a ++ c) = (toggles g b a && toggles g (last_driven g b a) c) := by
  induction a generalizing b with
  | nil => simp [toggles, last_driven]
  | cons e a ih =>
    show toggles g b (e :: (a ++ c)) = _
    simp only [toggles]
    rw [ih, last_driven_cons g b e a, Bool.and_assoc]

theorem inert_append (g : Gpio) (a c : List Effect) (ha : inert g a) (hc : inert g c) :
    inert g (a ++ c) := by
  intro b
  rw [last_driven_append, toggles_append, (ha b).1, (ha b).2, (hc b).1, (hc b).2]
  exact ⟨rfl, rfl⟩

theorem inert_of_no_write (g : Gpio) (l : List Effect)
    (h : ∀ e ∈ l, ∀ v, e ≠ Effect.gpio_set g v) : inert g l := by
  induction l with
  | nil => intro b; exact ⟨rfl, rfl⟩
  | cons e l ih =>
    have hl := ih (fun e he => h e (List.mem_cons_of_mem _ he))
    have he := h e (List.mem_cons_self _ _)
    have h1 : inert g [e] := by
      intro b
      cases e with
      | gpio_set k v =>
        have hk : k ≠ g := fun hk => he v (by rw [hk])
        simp [last_driven, toggles, hk]
      | _ => simp [last_driven, toggles]
    exact inert_append g [e] l h1 hl

theorem rail_not_quiet (g : Gpio) (hg : g ∈ rails) (v : Bool) :
    quiet_action (.gpio_set g v) = false := by
  simp only [rails, List.mem_cons, List.mem_singleton, List.not_mem_nil, or_false] at hg
  rcases hg with rfl | rfl | rfl | rfl | rfl <;> rfl

theorem inert_led_out (g : Gpio) (hg : g ∈ rails) (r s4 a lr : Bool) (st : Int)
    (tf1 tr1 : Bool) (tmod : Nat) : inert g (led_out r s4 a lr st tf1 tr1 tmod) := by
  apply inert_of_no_write
  intro e he v hev
  have hq := quiet_led_out r s4 a lr st tf1 tr1 tmod e he
  rw [hev, rail_not_quiet g hg v] at hq
  exact Bool.noConfusion hq

theorem inert_startup_out (g : Gpio) (hg : g ∈ rails) (s : PowerState) :
    inert g (startup_out s) := by
  intro b
  simp only [rails, List.mem_cons, List.mem_singleton, List.not_mem_nil, or_false] at hg
  rcases hg with rfl | rfl | rfl | rfl | rfl <;> cases s <;> cases b <;> decide

theorem inert_pwrgd_out (g : Gpio) (hg : g ∈ rails) (p l : Bool) :
    inert g (pwrgd_out p l) := by
  intro b
  simp only [rails, List.mem_cons, List.mem_singleton, List.not_mem_nil, or_false] at hg
  rcases hg with rfl | rfl | rfl | rfl | rfl <;> cases p <;> cases l <;> cases b <;> decide

theorem inert_rst_out (g : Gpio) (hg : g ∈ rails) (r l : Bool) : inert g (rst_out r l) := by
  intro b
  simp only [rails, List.mem_cons, List.mem_singleton, List.not_mem_nil, or_false] at hg
  rcases hg with rfl | rfl | rfl | rfl | rfl <;> cases r <;> cases l <;> cases b <;> decide

theorem inert_ac_out (g : Gpio) (hg : g ∈ rails) (a k l c : Bool) :
    inert g (ac_out a k l c) := by
  intro b
  simp only [rails, List.mem_cons, List.mem_singleton, List.not_mem_nil, or_false] at hg
  rcases hg with rfl | rfl | rfl | rfl | rfl <;>
    cases a <;> cases k <;> cases l <;> cases c <;> cases b <;> decide

theorem inert_btn (g : Gpio) (hg : g ∈ rails) (v : Bool) :
    inert g [Effect.gpio_set .PWR_BTN_N v] := by
  intro b
  simp only [rails, List.mem_cons, List.mem_singleton, List.not_mem_nil, or_false] at hg
  rcases hg with rfl | rfl | rfl | rfl | rfl <;> cases v <;> cases b <;> decide

theorem rail_switch_out (g : Gpio) (hg : g ∈ rails) (r a l : Bool) (s : PowerState) :
    last_driven g (decide (s = POWER_STATE_S5)) (switch_out r a l (startup_state s)) =
      decide (switch_state r a l (startup_state s) = POWER_STATE_S5) ∧
    toggles g (decide (s = POWER_STATE_S5)) (switch_out r a l (startup_state s)) = true := by
  simp only [rails, List.mem_cons, List.mem_singleton, List.not_mem_nil, or_false] at hg
  rcases hg with rfl | rfl | rfl | rfl | rfl <;>
    cases s <;> cases r <;> cases a <;> cases l <;> decide

theorem rail_ack_out (g : Gpio) (hg : g ∈ rails) (a s4 l : Bool) (s : PowerState) :
    last_driven g (decide (s = POWER_STATE_S5)) (ack_out a s4 l s) =
      decide (ack_state a s4 l s = POWER_STATE_S5) ∧
    toggles g (decide (s = POWER_STATE_S5)) (ack_out a s4 l s) = true := by
  simp only [rails, List.mem_cons, List.mem_singleton, List.not_mem_nil, or_false] at hg
  rcases hg with rfl | rfl | rfl | rfl | rfl <;>
    cases s <;> cases a <;> cases s4 <;> cases l <;> decide

/-- Effect of one poll on a rail output whose level mirrors `state = S5`. -/
theorem rail_poll_out (g : Gpio) (hg : g ∈ rails) (i : Inputs) (w : World) :
    last_driven g (decide (w.state = POWER_STATE_S5)) (poll_out i w) =
      decide (poll_state i w = POWER_STATE_S5) ∧
    toggles g (decide (w.state = POWER_STATE_S5)) (poll_out i w) = true := by
  have h1 := inert_startup_out g hg
  have h3 := inert_pwrgd_out g hg
  have h4 := inert_rst_out g hg
  have h6 := inert_led_out g hg
  have h7 := inert_ac_out g hg
  have h8 := inert_btn g hg
  have hsw := rail_switch_out g hg
  have hak := rail_ack_out g hg
  simp only [poll_out, before_led_out, last_driven_append, toggles_append, (h1 _ _).1,
    (h1 _ _).2, (h7 _ _ _ _ _).1, (h7 _ _ _ _ _).2, (hsw _ _ _ _).1, (hsw _ _ _ _).2,
    (h8 _ _).1, (h8 _ _).2, (h3 _ _ _).1, (h3 _ _ _).2, (h4 _ _ _).1, (h4 _ _ _).2,
    (hak _ _ _ _).1, (hak _ _ _ _).2, (h6 _ _ _ _ _ _ _ _ _).1, (h6 _ _ _ _ _ _ _ _ _).2,
    Bool.and_self, poll_state, and_self]

theorem rail_run (g : Gpio) (hg : g ∈ rails) (ps : List Poll) (w : World)
    (h : last_driven g false w.trace = decide (w.state = POWER_STATE_S5))
    (ht : toggles g false w.trace = true) :
    last_driven g false (run ps w).trace = decide ((run ps w).state = POWER_STATE_S5) ∧
    toggles g false (run ps w).trace = true := by
  induction ps generalizing w with
  | nil => exact ⟨h, ht⟩
  | cons p ps ih =>
    have hr := rail_poll_out g hg p.inputs (host_step p w)
    have hs : (host_step p w).state = w.state := rfl
    rw [hs] at hr
    apply ih (poll p w)
    · rw [poll_trace, last_driven_append, h, hr.1, poll_eq_state]
      rfl
    · rw [poll_trace, toggles_append, ht, h, hr.2]
      rfl

theorem mem_ec_en_on_poll_out (i : Inputs) (w : World) :
    Effect.gpio_set .EC_EN true ∈ poll_out i w ↔
      (press_confirmed i.PWR_SW_N i.PWR_SW_N_again w.ps_last = true ∧
        startup_state w.state = POWER_STATE_DS5) := by
  have h1 : ∀ s, Effect.gpio_set .EC_EN true ∉ startup_out s := by
    intro s; cases s <;> decide
  have h2 : ∀ a s4 l s, Effect.gpio_set .EC_EN true ∉ ack_out a s4 l s := by
    intro a s4 l s; cases s <;> cases a <;> cases s4 <;> cases l <;> decide
  have h3 : ∀ p l, Effect.gpio_set .EC_EN true ∉ pwrgd_out p l := by
    intro p l; cases p <;> cases l <;> decide
  have h4 : ∀ r l, Effect.gpio_set .EC_EN true ∉ rst_out r l := by
    intro r l; cases r <;> cases l <;> decide
  have h5 : ∀ a k l c, Effect.gpio_set .EC_EN true ∉ ac_out a k l c := by
    intro a k l c; cases a <;> cases k <;> cases l <;> cases c <;> decide
  have h6 : ∀ r s4 a lr st tf1 tr1 tmod,
      Effect.gpio_set .EC_EN true ∉ led_out r s4 a lr st tf1 tr1 tmod := by
    intro r s4 a lr st tf1 tr1 tmod
    by_cases hst : st ≤ 0 <;> cases r <;> cases s4 <;> cases a <;> cases tf1 <;> cases tr1 <;>
      simp [led_out, led_suspend_out, timer_reload, hst]
  have h7 : ∀ r a l s, Effect.gpio_set .EC_EN true ∈ switch_out r a l s ↔
      (press_confirmed r a l = true ∧ s = POWER_STATE_DS5) := by
    intro r a l s; cases s <;> cases r <;> cases a <;> cases l <;> decide
  simp only [poll_out, before_led_out, List.mem_append, h1, h2, h3, h4, h5, h6, h7,
    List.mem_singleton, false_or, or_false]
  simp

/-- C20. Taking the rail outputs as low before the first poll, after every
sequence of polls from construction each of VA_EC_EN, DD_ON, PCH_DPWROK_EC,
EC_RSMRST_N and EC_EN was last driven high if `state` is S5 and last driven
low, or never driven, otherwise; every write to one of them changes its
level, starting with a write of high, so runs of `power_on_s5` and
`power_off_s5` alternate; a poll runs `power_on_s5` only when `state` is DS5
at the switch step and `power_off_s5` only when `state` is S5 at the
SUSPWRDNACK step. -/
theorem C20_rail_state_consistency (tmod th1 tl1 : Nat) (tr1 tf1 : Bool) (ps : List Poll) :
    (∀ g ∈ rails, last_driven g false (run ps (boot tmod th1 tl1 tr1 tf1)).trace =
      decide ((run ps (boot tmod th1 tl1 tr1 tf1)).state = POWER_STATE_S5)) ∧
    (∀ g ∈ rails, toggles g false (run ps (boot tmod th1 tl1 tr1 tf1)).trace = true) ∧
    (∀ (i : Inputs) (w : World), Effect.gpio_set .EC_EN true ∈ emitted i w →
      (startup_block w).state = POWER_STATE_DS5 ∧
      (before_btn i w).2.state = POWER_STATE_S5) ∧
    (∀ (i : Inputs) (w : World), Effect.gpio_set .EC_EN false ∈ emitted i w →
      (before_ack i w).state = POWER_STATE_S5 ∧
      (power_event i w).state = POWER_STATE_DS5) := by
  refine ⟨?_, ?_, ?_, ?_⟩
  · intro g hg
    exact (rail_run g hg ps (boot tmod th1 tl1 tr1 tf1) rfl rfl).1
  · intro g hg
    exact (rail_run g hg ps (boot tmod th1 tl1 tr1 tf1) rfl rfl).2
  · intro i w h
    rw [emitted_eq, mem_ec_en_on_poll_out] at h
    refine ⟨by simpa [startup_block_eq] using h.2, ?_⟩
    simp [before_btn_eq, switch_state, h.1, h.2]
  · intro i w h
    rw [emitted_eq, mem_ec_en_off_poll_out] at h
    have hs : switch_state i.PWR_SW_N i.PWR_SW_N_again w.ps_last (startup_state w.state) =
        POWER_STATE_S5 := by
      simp only [ack_fires, Bool.and_eq_true, decide_eq_true_eq] at h
      exact h.2
    refine ⟨by simp [before_ack_eq, hs], ?_⟩
    simp [power_event_eq, poll_state, ack_state, h]

/-- C20 at a sample input: after an idle poll and a confirmed press EC_EN was
last driven high and `state` is S5. -/
theorem C20_rail_state_consistency_witness :
    Gpio.EC_EN ∈ rails ∧
    (run [idle_poll, { idle_poll with inputs :=
        { idle_inputs with PWR_SW_N := false, PWR_SW_N_again := false } }]
      (boot 0 0 0 false false)).state = POWER_STATE_S5 ∧
    last_driven .EC_EN false (run [idle_poll, { idle_poll with inputs :=
        { idle_inputs with PWR_SW_N := false, PWR_SW_N_again := false } }]
      (boot 0 0 0 false false)).trace =
      decide ((run [idle_poll, { idle_poll with inputs :=
        { idle_inputs with PWR_SW_N := false, PWR_SW_N_again := false } }]
      (boot 0 0 0 false false)).state = POWER_STATE_S5) :=
  ⟨by decide, by decide, (C20_rail_state_consistency 0 0 0 false false
    [idle_poll, { idle_poll with inputs :=
        { idle_inputs with PWR_SW_N := false, PWR_SW_N_again := false } }]).1 .EC_EN
    (by decide)⟩

end Darp5
